import Mathlib

/-!
Verification of the IMG-TGBed image-hosting gateway (two source files:
`functions/upload_url.js`, the batch-ingestion endpoint, and the listing
endpoint file holding `listAllKeys` / `buildItem` / `fetchAllWithMetadata` /
`onRequestGet`).

The JavaScript is shallowly embedded: JavaScript values are modelled by the
inductive `JVal` (numbers restricted to integers, which covers every numeric
value the two files manipulate), property access on `null`/`undefined` raises
(modelled with `Except`), and the platform built-ins the code calls
(`JSON.parse`, `encodeURIComponent`, `parseInt`, the KV store, `fetch`) are
modelled as executable Lean functions or explicit outcome parameters.
-/

/-- A JavaScript runtime value as used by the two source files.  Numbers are
restricted to integers (`num`) plus the `NaN` sentinel (`nan`); every numeric
value produced or consumed by this repository (timestamps, file sizes,
message ids) is an integer. -/
inductive JVal where
  | null : JVal
  | undef : JVal
  | nan : JVal
  | bool : Bool → JVal
  | num : Int → JVal
  | str : String → JVal
  | arr : List JVal → JVal
  | obj : List (String × JVal) → JVal

/-- JavaScript loose-nullish test: `v == null`, true exactly for `null` and
`undefined`. -/
def nullish : JVal → Bool
  | JVal.null => true
  | JVal.undef => true
  | _ => false

/-- JavaScript truthiness: `null`, `undefined`, `NaN`, `false`, `0` and `""`
are falsy; every other value (including empty arrays and objects) is truthy. -/
def truthy : JVal → Bool
  | JVal.null => false
  | JVal.undef => false
  | JVal.nan => false
  | JVal.bool b => b
  | JVal.num n => decide (n ≠ 0)
  | JVal.str s => decide (s ≠ "")
  | JVal.arr _ => true
  | JVal.obj _ => true

/-- `typeof v === "number"` (true for `NaN` as well). -/
def isNumberJ : JVal → Bool
  | JVal.num _ => true
  | JVal.nan => true
  | _ => false

/-- `typeof v === "string"`. -/
def isStringJ : JVal → Bool
  | JVal.str _ => true
  | _ => false

/-- Property read on a value that is known not to be nullish: object lookup,
`undefined` for a missing field or for any non-object base.  (Reads on
`null`/`undefined` go through `getProp`, which raises.) -/
def propOf (v : JVal) (k : String) : JVal :=
  match v with
  | JVal.obj fs =>
    match fs.find? (fun p => p.1 == k) with
    | some p => p.2
    | none => JVal.undef
  | _ => JVal.undef

/-- JavaScript property access `v.k`: a `TypeError` when `v` is
`null`/`undefined`, otherwise the (possibly `undefined`) property value. -/
def getProp (v : JVal) (k : String) : Except String JVal :=
  if nullish v then Except.error ("TypeError: cannot read properties of null reading " ++ k)
  else Except.ok (propOf v k)

/-- JavaScript short-circuiting `a || b`. -/
def jsOr (a b : JVal) : JVal :=
  if truthy a then a else b

/-- Whitespace recognised by ECMAScript `trim` and `parseInt`: WhiteSpace
(tab, VT, FF, space, NBSP, ZWNBSP and the Unicode space separators) and the
line terminators. -/
def isJsWhitespace (c : Char) : Bool :=
  let n := c.toNat
  n == 9 || n == 10 || n == 11 || n == 12 || n == 13 || n == 32 || n == 160 ||
  n == 0x1680 || (0x2000 ≤ n && n ≤ 0x200A) || n == 0x2028 || n == 0x2029 ||
  n == 0x202F || n == 0x205F || n == 0x3000 || n == 0xFEFF

/-- Model of `String.prototype.trim` over the modelled whitespace set. -/
def jsTrim (s : String) : String :=
  String.mk (((s.toList.dropWhile isJsWhitespace).reverse.dropWhile isJsWhitespace).reverse)

/-- Model of `String.prototype.slice(n)` for a non-negative start. -/
def jsDrop (s : String) (n : Nat) : String :=
  String.mk (s.toList.drop n)

/-- Model of `String.prototype.startsWith`. -/
def jsStartsWith (s p : String) : Bool :=
  p.toList.isPrefixOf s.toList

/-- ECMAScript `ToNumber`, restricted to the integer-valued fragment this
repository exercises: numbers pass through, `null`/booleans map to 0/1,
`undefined` and objects map to `NaN` (`none`), and strings are accepted when
they are (trimmed, optionally signed) decimal integer numerals.  `none`
models `NaN`. -/
def jsToNumber : JVal → Option Int
  | JVal.num n => some n
  | JVal.nan => none
  | JVal.null => some 0
  | JVal.undef => none
  | JVal.bool b => some (if b then 1 else 0)
  | JVal.str s =>
    let t := jsTrim s
    if t = "" then some 0
    else
      let (sgn, ds) :=
        match t.toList with
        | c :: rest => if c = '-' then ((-1 : Int), rest) else if c = '+' then (1, rest) else (1, t.toList)
        | [] => (1, t.toList)
      if ds ≠ [] && ds.all Char.isDigit then
        some (sgn * (ds.foldl (fun a c => a * 10 + (c.toNat - 48)) 0 : Nat))
      else none
  | JVal.arr [] => some 0
  | JVal.arr _ => none
  | JVal.obj _ => none

/-- Lexicographic (code-unit) order on strings, as ECMAScript's abstract
relational comparison uses when both operands are strings. -/
def jsLexLt : List Char → List Char → Bool
  | [], [] => false
  | [], _ :: _ => true
  | _ :: _, [] => false
  | a :: as, b :: bs =>
    if a.toNat < b.toNat then true
    else if b.toNat < a.toNat then false
    else jsLexLt as bs

/-- JavaScript `a > b` as the source applies it to `file_size || 0` values:
when both operands are strings they compare lexicographically by code units
(so `"9" > "10"`), otherwise both are converted with `ToNumber` and any
`NaN` makes the comparison false.  (`ToPrimitive` stringification of
containers is outside the modelled fragment; reported sizes are JSON numbers
or strings.) -/
def jsGT (a b : JVal) : Bool :=
  match a, b with
  | JVal.str sa, JVal.str sb => jsLexLt sb.toList sa.toList
  | _, _ =>
    match jsToNumber a, jsToNumber b with
    | some x, some y => decide (y < x)
    | _, _ => false

/-- Stringification of one array element inside `Array.prototype.toString`:
`null`/`undefined` become the empty string.  Nested arrays/objects are
modelled shallowly (depth one), which covers every value the claims touch. -/
def jsElemShallow : JVal → String
  | JVal.null => ""
  | JVal.undef => ""
  | JVal.nan => "NaN"
  | JVal.bool b => if b then "true" else "false"
  | JVal.num n => toString n
  | JVal.str s => s
  | JVal.arr _ => ""
  | JVal.obj _ => "[object Object]"

/-- ECMAScript `ToString`, as used by template literals, `String(...)` and
`parseInt`'s argument coercion in the source.  Arrays join their elements
with commas (nested containers modelled shallowly). -/
def jsToString : JVal → String
  | JVal.null => "null"
  | JVal.undef => "undefined"
  | JVal.nan => "NaN"
  | JVal.bool b => if b then "true" else "false"
  | JVal.num n => toString n
  | JVal.str s => s
  | JVal.arr xs => String.intercalate "," (xs.map jsElemShallow)
  | JVal.obj _ => "[object Object]"

/-- ECMAScript `parseInt(s, 10)`: skip leading whitespace, read an optional
sign and then the longest leading run of decimal digits; `NaN` when there is
no digit. -/
def parseIntTen (s : String) : JVal :=
  let cs := s.toList.dropWhile isJsWhitespace
  let (sgn, rest) :=
    match cs with
    | c :: r => if c = '-' then ((-1 : Int), r) else if c = '+' then (1, r) else (1, cs)
    | [] => (1, cs)
  let ds := rest.takeWhile Char.isDigit
  if ds = [] then JVal.nan
  else JVal.num (sgn * (ds.foldl (fun a c => a * 10 + (c.toNat - 48)) 0 : Nat))

/-- JSON document whitespace. -/
def isJsonWs (c : Char) : Bool :=
  c = ' ' || c = '\t' || c = '\n' || c = '\r'

/-- Drop leading JSON whitespace. -/
def skipWsL : List Char → List Char
  | [] => []
  | c :: rest => if isJsonWs c then skipWsL rest else c :: rest

/-- Replace-or-append insertion used to model the last-one-wins duplicate-key
behaviour of `JSON.parse` object construction. -/
def objInsert (fs : List (String × JVal)) (k : String) (v : JVal) : List (String × JVal) :=
  if fs.any (fun p => p.1 == k) then fs.map (fun p => if p.1 == k then (k, v) else p)
  else fs ++ [(k, v)]

/-- Hexadecimal digit test for the `\u` escape. -/
def isHexDigitC (c : Char) : Bool :=
  c.isDigit || ('a' <= c && c <= 'f') || ('A' <= c && c <= 'F')

/-- Decode one JSON string body after the opening quote; returns the decoded
characters and the remainder after the closing quote.  Handles the standard
escapes and `\uXXXX` (surrogate pairs are modelled as two code units).
Fuelled recursion; the fuel is always at least the input length. -/
def parseStrBody : Nat → List Char → Option (List Char × List Char)
  | 0, _ => none
  | _ + 1, [] => none
  | fuel + 1, c :: rest =>
    if c = Char.ofNat 34 then some ([], rest)
    else if c = Char.ofNat 92 then
      match rest with
      | [] => none
      | e :: rest2 =>
        if e = Char.ofNat 34 || e = Char.ofNat 92 || e = Char.ofNat 47 then
          match parseStrBody fuel rest2 with
          | some (cs, rem) => some (e :: cs, rem)
          | none => none
        else if e = 'b' || e = 'f' || e = 'n' || e = 'r' || e = 't' then
          let d := if e = 'b' then Char.ofNat 8 else if e = 'f' then Char.ofNat 12
            else if e = 'n' then Char.ofNat 10 else if e = 'r' then Char.ofNat 13 else Char.ofNat 9
          match parseStrBody fuel rest2 with
          | some (cs, rem) => some (d :: cs, rem)
          | none => none
        else if e = 'u' then
          match rest2 with
          | h1 :: h2 :: h3 :: h4 :: rest3 =>
            if isHexDigitC h1 && isHexDigitC h2 && isHexDigitC h3 && isHexDigitC h4 then
              let hv := fun (c : Char) =>
                if c.isDigit then c.toNat - 48
                else if 'a' ≤ c then c.toNat - 87 else c.toNat - 55
              let code := ((hv h1 * 16 + hv h2) * 16 + hv h3) * 16 + hv h4
              match parseStrBody fuel rest3 with
              | some (cs, rem) => some (Char.ofNat code :: cs, rem)
              | none => none
            else none
          | _ => none
        else none
    else if c.toNat < 32 then none
    else
      match parseStrBody fuel rest with
      | some (cs, rem) => some (c :: cs, rem)
      | none => none

/-- Parse a JSON integer numeral (the numeric fragment this model supports:
an optional minus sign and a leading-zero-free digit run; fractional and
exponent forms are outside the values this repository stores).  Returns the
value and the remainder. -/
def parseNumL (cs : List Char) : Option (Int × List Char) :=
  let (sgn, body) :=
    match cs with
    | c :: r => if c = '-' then ((-1 : Int), r) else (1, cs)
    | [] => (1, cs)
  match body with
  | [] => none
  | d :: _ =>
    if !d.isDigit then none
    else
      let ds := body.takeWhile Char.isDigit
      let rem := body.dropWhile Char.isDigit
      -- leading zeros are invalid JSON except for a lone zero
      if ds.length > 1 && d = '0' then none
      -- a fractional or exponent continuation is outside the modelled fragment
      else match rem with
        | c :: _ => if c = '.' || c = 'e' || c = 'E' then none
          else some (sgn * (ds.foldl (fun a c => a * 10 + (c.toNat - 48)) 0 : Nat), rem)
        | [] => some (sgn * (ds.foldl (fun a c => a * 10 + (c.toNat - 48)) 0 : Nat), rem)

mutual

/-- Parse one JSON value (after any leading whitespace has been skipped by
the caller).  Fuelled mutual recursion modelling `JSON.parse`. -/
def parseVal : Nat → List Char → Option (JVal × List Char)
  | 0, _ => none
  | fuel + 1, cs =>
    match cs with
    | [] => none
    | c :: rest =>
      if c = 'n' then
        match rest with
        | 'u' :: 'l' :: 'l' :: rem => some (JVal.null, rem)
        | _ => none
      else if c = 't' then
        match rest with
        | 'r' :: 'u' :: 'e' :: rem => some (JVal.bool true, rem)
        | _ => none
      else if c = 'f' then
        match rest with
        | 'a' :: 'l' :: 's' :: 'e' :: rem => some (JVal.bool false, rem)
        | _ => none
      else if c = Char.ofNat 34 then
        match parseStrBody (rest.length + 1) rest with
        | some (body, rem) => some (JVal.str (String.mk body), rem)
        | none => none
      else if c = Char.ofNat 91 then
        -- '[' : array
        match skipWsL rest with
        | d :: rem2 =>
          if d = Char.ofNat 93 then some (JVal.arr [], rem2)
          else
            match parseArrItems fuel (skipWsL rest) with
            | some (xs, rem) => some (JVal.arr xs, rem)
            | none => none
        | [] => none
      else if c = Char.ofNat 123 then
        -- opening brace : object
        match skipWsL rest with
        | d :: rem2 =>
          if d = Char.ofNat 125 then some (JVal.obj [], rem2)
          else
            match parseObjItems fuel (skipWsL rest) with
            | some (fs, rem) => some (JVal.obj fs, rem)
            | none => none
        | [] => none
      else
        match parseNumL cs with
        | some (n, rem) => some (JVal.num n, rem)
        | none => none

/-- Parse the comma-separated items of a non-empty JSON array, consuming the
closing bracket. -/
def parseArrItems : Nat → List Char → Option (List JVal × List Char)
  | 0, _ => none
  | fuel + 1, cs =>
    match parseVal fuel cs with
    | none => none
    | some (v, rem) =>
      match skipWsL rem with
      | c :: rem2 =>
        if c = ',' then
          match parseArrItems fuel (skipWsL rem2) with
          | some (xs, rem3) => some (v :: xs, rem3)
          | none => none
        else if c = Char.ofNat 93 then some ([v], rem2)
        else none
      | [] => none

/-- Parse the comma-separated members of a non-empty JSON object, consuming
the closing brace; duplicate keys follow last-one-wins. -/
def parseObjItems : Nat → List Char → Option (List (String × JVal) × List Char)
  | 0, _ => none
  | fuel + 1, cs =>
    match cs with
    | c :: rest =>
      if c = Char.ofNat 34 then
        match parseStrBody (rest.length + 1) rest with
        | none => none
        | some (key, rem) =>
          match skipWsL rem with
          | ':' :: rem2 =>
            match parseVal fuel (skipWsL rem2) with
            | none => none
            | some (v, rem3) =>
              match skipWsL rem3 with
              | d :: rem4 =>
                if d = ',' then
                  match parseObjItems fuel (skipWsL rem4) with
                  | some (fs, rem5) => some (objInsert fs (String.mk key) v, rem5)
                  | none => none
                else if d = Char.ofNat 125 then some ([(String.mk key, v)], rem4)
                else none
              | [] => none
          | _ => none
      else none
    | [] => none

end

/-- Model of `JSON.parse`: `none` when the text is not valid JSON (within the
modelled fragment), otherwise the parsed value.  The whole input must be
consumed up to trailing whitespace. -/
def tryParseJSON (s : String) : Option JVal :=
  match parseVal (s.length + 1) (skipWsL s.toList) with
  | some (v, rem) => if skipWsL rem = [] then some v else none
  | none => none

/-- Uppercase hexadecimal digit. -/
def hexUpper (n : Nat) : Char :=
  if n < 10 then Char.ofNat (48 + n) else Char.ofNat (55 + n)

/-- Bytes left verbatim by `encodeURIComponent`: ASCII alphanumerics and
`- _ . ! ~ * ' ( )`. -/
def uriUnreserved (n : Nat) : Bool :=
  (65 ≤ n && n ≤ 90) || (97 ≤ n && n ≤ 122) || (48 ≤ n && n ≤ 57) ||
  n == 45 || n == 95 || n == 46 || n == 33 || n == 126 || n == 42 ||
  n == 39 || n == 40 || n == 41

/-- Model of `encodeURIComponent`: percent-encode every UTF-8 byte outside
the unreserved set. -/
def encodeURIComponent (s : String) : String :=
  String.mk ((s.toUTF8.toList.map (fun b =>
    let n := b.toNat
    if uriUnreserved n then [Char.ofNat n]
    else [Char.ofNat 37, hexUpper (n / 16), hexUpper (n % 16)])).flatten)

/-- `const LIST_PAGE_SIZE = 1000` (listing file): the store's per-call list
limit. -/
def LIST_PAGE_SIZE : Nat := 1000

/-- `const BATCH_SIZE = 50` (listing file): concurrent `getWithMetadata`
batch width. -/
def BATCH_SIZE : Nat := 50

/-- One record held by the key-value store for a key: the text value (`null`
or a string) and the metadata bag (`null` or any structured value). -/
structure KVEntry where
  value : Option String
  metadata : JVal

/-- Model of the `img_url` KV namespace, as the listing endpoint observes it:
the sequence of pages its `list` operation serves (each page a list of key
names, the continuation cursor opaquely identifying the next page index), and
the per-key `getWithMetadata` responses (`none` models a `null` response). -/
structure StoreModel where
  pages : List (List String)
  entries : String → Option KVEntry

/-- The page of key names the store returns for cursor position `i`. -/
def kvListKeys (s : StoreModel) (i : Nat) : List String :=
  (s.pages.drop i).headD []

/-- Whether the store reports `list_complete` at cursor position `i` (true
exactly when the served page is the last one, or the position is past the
end). -/
def kvListComplete (s : StoreModel) (i : Nat) : Bool :=
  decide (s.pages.length ≤ i + 1)

/-- `listAllKeys`'s do-while loop from position `i`: collect this page's key
names and, unless the store reports completion, continue at the returned
cursor.  Mirrors lines 28–37 of the listing file. -/
def listAllKeysFrom (s : StoreModel) (i : Nat) : List String :=
  if kvListComplete s i then kvListKeys s i
  else kvListKeys s i ++ listAllKeysFrom s (i + 1)
termination_by s.pages.length - i
decreasing_by
  simp only [kvListComplete, decide_eq_true_eq, not_le] at *
  omega

/-- `async function listAllKeys(kv, cursor = undefined)`: walk the store's
pages starting at the given cursor (`none` = start of the key space),
appending every key name, until the store signals `list_complete`. -/
def listAllKeys (s : StoreModel) (cursor : Option Nat) : List String :=
  listAllKeysFrom s (cursor.getD 0)

/-- Per-key result shape `{name, value, metadata}` produced by
`fetchAllWithMetadata` (value and metadata defaulted to null when absent). -/
structure FetchedRec where
  name : String
  value : Option String
  metadata : JVal

/-- One `kv.getWithMetadata(name, {type:"text"})` call:
`{ name, value: r?.value ?? null, metadata: r?.metadata ?? null }`. -/
def fetchOneRec (s : StoreModel) (name : String) : FetchedRec :=
  match s.entries name with
  | some e => { name := name, value := e.value, metadata := e.metadata }
  | none => { name := name, value := none, metadata := JVal.null }

/-- `fetchAllWithMetadata`: partition the key list into contiguous batches of
`BATCH_SIZE`, resolving each batch before the next; within a batch the output
order follows the input key order (the concurrent completion order is not
observable in the result). -/
def fetchAllWithMetadata (s : StoreModel) (keyNames : List String) : List FetchedRec :=
  match keyNames with
  | [] => []
  | k :: rest =>
    ((k :: rest).take BATCH_SIZE).map (fetchOneRec s) ++
      fetchAllWithMetadata s ((k :: rest).drop BATCH_SIZE)
termination_by keyNames.length
decreasing_by
  simp only [List.length_drop, List.length_cons, BATCH_SIZE]
  omega

/-- The normalized listing record (`buildItem`'s return shape). `storageType`
is `some` exactly when the metadata carries a truthy `storageType` (the
conditional object spread on line 56). -/
structure ListingItem where
  key : String
  url : String
  fileName : JVal
  uploadTime : JVal
  storageType : Option JVal

/-- `buildItem`'s `extra` computation (lines 41–46): parse the value text as
JSON when it is non-empty after trimming; on parse failure (or no text) the
extra data is the empty object. -/
def parseExtra (valueText : Option String) : JVal :=
  match valueText with
  | some s => if jsTrim s = "" then JVal.obj [] else (tryParseJSON s).getD (JVal.obj [])
  | none => JVal.obj []

/-- Line 49: `const fileName = m.fileName || extra.fileName || keyName;`.
The read of `extra.fileName` raises when `extra` is nullish (a value payload
of the JSON text `null`) and is only reached when `m.fileName` is falsy. -/
def fileNameRes (m extra : JVal) (keyName : String) : Except String JVal :=
  if truthy (propOf m "fileName") then Except.ok (propOf m "fileName")
  else
    match getProp extra "fileName" with
    | Except.error e => Except.error e
    | Except.ok ef => Except.ok (if truthy ef then ef else JVal.str keyName)

/-- Line 50: `const uploadTime = m.TimeStamp != null ? m.TimeStamp :
(extra.uploadTime ?? extra.TimeStamp ?? null);` with the same raising reads
of `extra`. -/
def uploadTimeRes (m extra : JVal) : Except String JVal :=
  if nullish (propOf m "TimeStamp") = false then Except.ok (propOf m "TimeStamp")
  else
    match getProp extra "uploadTime" with
    | Except.error e => Except.error e
    | Except.ok eu =>
      if nullish eu = false then Except.ok eu
      else
        match getProp extra "TimeStamp" with
        | Except.error e => Except.error e
        | Except.ok et => Except.ok (if nullish et = false then et else JVal.null)

/-- Line 55's coercion: `uploadTime != null ? (typeof uploadTime === 'number'
? uploadTime : parseInt(uploadTime, 10)) : null`. -/
def coerceTime (t : JVal) : JVal :=
  if nullish t then JVal.null
  else if isNumberJ t then t
  else parseIntTen (jsToString t)

/-- `function buildItem(origin, keyName, metadata, valueText)` (lines 40–58):
merge the metadata bag (`metadata || {}`) with the optional JSON value
payload into one listing record.  The result is an `Except` because the
field reads on a nullish `extra` raise, exactly as in JavaScript. -/
def buildItem (origin keyName : String) (metadata : JVal) (valueText : Option String) :
    Except String ListingItem :=
  let extra := parseExtra valueText
  let m := jsOr metadata (JVal.obj [])
  let url := origin ++ "/file/" ++ encodeURIComponent keyName
  match fileNameRes m extra keyName with
  | Except.error e => Except.error e
  | Except.ok fileName =>
    match uploadTimeRes m extra with
    | Except.error e => Except.error e
    | Except.ok uploadTime0 =>
      Except.ok
        { key := keyName
          url := url
          fileName := fileName
          uploadTime := coerceTime uploadTime0
          storageType :=
            if truthy (propOf m "storageType") then some (propOf m "storageType") else none }

/-- An HTTP response as both handlers build it: status plus the JSON body
passed to `JSON.stringify` (the CORS/content-type headers are constant and
not modelled). -/
structure Response where
  status : Nat
  body : JVal

/-- `jsonResponse(body, status)`. -/
def jsonResponse (body : JVal) (status : Nat) : Response :=
  { status := status, body := body }

/-- `errResponse(message, status)` = `jsonResponse({ error: message },
status)`. -/
def errResponse (message : String) (status : Nat) : Response :=
  jsonResponse (JVal.obj [("error", JVal.str message)]) status

/-- Serialize a `ListingItem` back to the JSON object shape `buildItem`
returns (the `...(m.storageType && {storageType})` spread adds the field only
when present). -/
def listingItemToJVal (it : ListingItem) : JVal :=
  JVal.obj
    ([("key", JVal.str it.key), ("url", JVal.str it.url), ("fileName", it.fileName),
      ("uploadTime", it.uploadTime)] ++
      (match it.storageType with
       | some st => [("storageType", st)]
       | none => []))

/-- The `fetched.map(... buildItem ...)` step of `onRequestGet`; the first
raising `buildItem` aborts the whole mapping (caught by the handler's
try/catch). -/
def buildList (origin : String) : List FetchedRec → Except String (List ListingItem)
  | [] => Except.ok []
  | f :: rest =>
    match buildItem origin f.name f.metadata f.value with
    | Except.error e => Except.error e
    | Except.ok it =>
      match buildList origin rest with
      | Except.error e => Except.error e
      | Except.ok l => Except.ok (it :: l)

/-- The execution environment bindings both handlers read: the shared secret,
the bot credentials, and the `img_url` KV namespace binding (absent when not
configured). -/
structure Env where
  BASIC_PASS : Option String
  TG_Bot_Token : Option String
  TG_Chat_ID : Option String
  img_url : Option StoreModel

/-- Truthiness of an optional environment string (`undefined` or `""` are
falsy). -/
def envTruthy : Option String → Bool
  | some s => decide (s ≠ "")
  | none => false

/-- `export async function onRequestGet(context)` (listing file, lines
76–109): pwd gate, `img_url` configuration gate, then the
walk–fetch–normalize pipeline inside try/catch.  `pwdParam` is the `pwd`
query parameter and `cursorParam` the `cursor` query parameter, modelled as a
store-issued page cursor (the walk treats it as an opaque resume point). -/
def onRequestGet (env : Env) (origin : String) (pwdParam : Option String)
    (cursorParam : Option Nat) : Response :=
  if (match env.BASIC_PASS with
      | some bp => decide (bp ≠ "") && !(pwdParam == some bp)
      | none => false) then
    errResponse "Unauthorized" 401
  else
    match env.img_url with
    | none => errResponse "KV namespace img_url not configured" 500
    | some store =>
      let keyNames := listAllKeys store cursorParam
      let fetched := fetchAllWithMetadata store keyNames
      match buildList origin fetched with
      | Except.ok items =>
        jsonResponse
          (JVal.obj [("list", JVal.arr (items.map listingItemToJVal)),
            ("total", JVal.num items.length)]) 200
      | Except.error e =>
        errResponse (if e = "" then "Internal error" else e) 500

/-- `function getPassword(request)` (upload file, lines 24–31): a non-empty
`pwd` query parameter wins; otherwise a `Bearer `-prefixed Authorization
header yields its suffix, trimmed; otherwise `null`. -/
def getPassword (pwdParam authHeader : Option String) : Option String :=
  match pwdParam with
  | some p =>
    if p ≠ "" then some p
    else
      match authHeader with
      | some a => if a ≠ "" && jsStartsWith a "Bearer " then some (jsTrim (jsDrop a 7)) else none
      | none => none
  | none =>
    match authHeader with
    | some a => if a ≠ "" && jsStartsWith a "Bearer " then some (jsTrim (jsDrop a 7)) else none
    | none => none

/-- `function checkAuth(request, env)` (upload file, lines 34–38): true when
no secret is configured, else strict equality of the presented credential
with `env.BASIC_PASS`. -/
def checkAuth (env : Env) (pwdParam authHeader : Option String) : Bool :=
  match env.BASIC_PASS with
  | none => true
  | some bp => if bp = "" then true else getPassword pwdParam authHeader == some bp

/-- Pathname extraction of `new URL(urlStr)`, modelled for absolute
`scheme://host/path?query#fragment` URLs (the only shapes the ingestion
endpoint is fed); `none` models the constructor throwing. -/
def urlPathname (s : String) : Option String :=
  let cs := s.toList
  let schemeLen := (cs.takeWhile (fun c => c.isAlpha || c.isDigit || c = '+' || c = '-' || c = '.')).length
  if schemeLen = 0 then none
  else
    match cs.drop schemeLen with
    | ':' :: '/' :: '/' :: rest =>
      let hostAndMore := rest
      let host := hostAndMore.takeWhile (fun c => c ≠ '/' && c ≠ '?' && c ≠ '#')
      if host.isEmpty then none
      else
        let after := hostAndMore.drop host.length
        let path := after.takeWhile (fun c => c ≠ '?' && c ≠ '#')
        some (String.mk (if path.isEmpty then ['/'] else path))
    | _ => none

/-- `function getExtensionFromUrl(urlStr)` (upload file, lines 41–48): the
regex `\.([a-z0-9]+)$/i` on the URL's pathname — i.e. the run after the last
dot when it is non-empty and alphanumeric — lowercased; `jpg` when there is
no match or the URL fails to parse. -/
def getExtensionFromUrl (urlStr : String) : String :=
  match urlPathname urlStr with
  | none => "jpg"
  | some path =>
    let cs := path.toList
    let afterDot := (cs.reverse.takeWhile (fun c => c ≠ '.')).reverse
    if afterDot.length < cs.length ∧ afterDot ≠ [] ∧
        afterDot.all (fun c => c.isDigit || ('a' ≤ c.toLower && c.toLower ≤ 'z')) then
      String.mk (afterDot.map Char.toLower)
    else "jpg"

/-- `function randomFileName(ext)` (upload file, lines 71–74); `randId`
stands for the eight base-36 characters drawn from `Math.random()`. -/
def randomFileName (ext : String) (randId : String) : String :=
  "image_" ++ randId ++ "." ++ ext

/-- The anonymous reducer of `getFileIdFromPhoto` (line 54–56):
`(prev, cur) => (prev && (prev.file_size || 0) > (cur.file_size || 0)) ?
prev : cur`.  `prev.file_size` is only read after `prev &&` confirmed `prev`
truthy (hence non-nullish); `cur.file_size` raises when `cur` is nullish. -/
def largerStepId (prev cur : JVal) : Except String JVal :=
  if truthy prev then
    match getProp cur "file_size" with
    | Except.error e => Except.error e
    | Except.ok cs =>
      Except.ok
        (if jsGT (jsOr (propOf prev "file_size") (JVal.num 0)) (jsOr cs (JVal.num 0)) then prev
         else cur)
  else Except.ok cur

/-- `result.photo.reduce(...)` for `getFileIdFromPhoto`: the head is the
initial accumulator and the reducer folds over the tail. -/
def reducePhotoId : JVal → List JVal → Except String JVal
  | prev, [] => Except.ok prev
  | prev, cur :: rest =>
    match largerStepId prev cur with
    | Except.error e => Except.error e
    | Except.ok nxt => reducePhotoId nxt rest

/-- The textually identical anonymous reducer of `getFileSizeFromPhoto`
(line 64–66). -/
def largerStepSize (prev cur : JVal) : Except String JVal :=
  if truthy prev then
    match getProp cur "file_size" with
    | Except.error e => Except.error e
    | Except.ok cs =>
      Except.ok
        (if jsGT (jsOr (propOf prev "file_size") (JVal.num 0)) (jsOr cs (JVal.num 0)) then prev
         else cur)
  else Except.ok cur

/-- `result.photo.reduce(...)` for `getFileSizeFromPhoto`. -/
def reducePhotoSize : JVal → List JVal → Except String JVal
  | prev, [] => Except.ok prev
  | prev, cur :: rest =>
    match largerStepSize prev cur with
    | Except.error e => Except.error e
    | Except.ok nxt => reducePhotoSize nxt rest

/-- `function getFileIdFromPhoto(result)` (upload file, lines 51–58): `null`
when `result` is falsy, `result.photo` is not a non-empty array; otherwise
the reduced "largest" element's `file_id`. -/
def getFileIdFromPhoto (result : JVal) : Except String JVal :=
  if truthy result = false then Except.ok JVal.null
  else
    match propOf result "photo" with
    | JVal.arr (p :: ps) =>
      match reducePhotoId p ps with
      | Except.error e => Except.error e
      | Except.ok largest => getProp largest "file_id"
    | _ => Except.ok JVal.null

/-- `function getFileSizeFromPhoto(result)` (upload file, lines 61–68): `0`
on the same guards; otherwise the reduced element's `file_size || 0`. -/
def getFileSizeFromPhoto (result : JVal) : Except String JVal :=
  if truthy result = false then Except.ok (JVal.num 0)
  else
    match propOf result "photo" with
    | JVal.arr (p :: ps) =>
      match reducePhotoSize p ps with
      | Except.error e => Except.error e
      | Except.ok largest =>
        match getProp largest "file_size" with
        | Except.error e => Except.error e
        | Except.ok fs => Except.ok (jsOr fs (JVal.num 0))
    | _ => Except.ok (JVal.num 0)

/-- Outcome of the `fetch` call to the bot API for one item: the fetch
rejected with an error whose `message` is the given value, or it resolved and
`res.json()` either rejected (`none`) or produced the given parsed body. -/
inductive FetchOutcome where
  | netErr : JVal → FetchOutcome
  | resp : Option JVal → FetchOutcome

/-- Outcome of `env.img_url.put`: resolved, or rejected with a message. -/
inductive PutOutcome where
  | ok : PutOutcome
  | fail : String → PutOutcome

/-- Whether the put resolved. -/
def putOk : PutOutcome → Bool
  | PutOutcome.ok => true
  | PutOutcome.fail _ => false

/-- One record written to the store by ingestion. -/
structure KVWrite where
  key : String
  value : String
  metadata : JVal

/-- One per-item ingestion result (`IngestionResult`): the echoed input url,
the success flag, and either an error value or the new link and filename. -/
structure IngestionResult where
  url : JVal
  success : Bool
  error : Option JVal
  src : Option String
  fileName : Option JVal

/-- A failed per-item result `{ url, success: false, error }`. -/
def mkFail (u e : JVal) : IngestionResult :=
  { url := u, success := false, error := some e, src := none, fileName := none }

/-- Lines 115–142 of `processOne`: from the truthy `data.result` payload,
derive the file id, key, filename and size, perform the store write when
`img_url` is configured, and build the success result.  The write list
records the store mutation; a rejecting put propagates as an error. -/
def processResult (imageUrl : JVal) (urlS : String) (title : JVal) (env : Env)
    (baseUrl : String) (result : JVal) (putO : PutOutcome) (now : Int) (randId : String) :
    Except String (IngestionResult × List KVWrite) :=
  match getFileIdFromPhoto result with
  | Except.error e => Except.error e
  | Except.ok fileId =>
    if truthy fileId = false then
      Except.ok (mkFail imageUrl (JVal.str "no file_id in response"), [])
    else
      let ext := getExtensionFromUrl urlS
      let kvKey := jsToString fileId ++ "." ++ ext
      let fileName :=
        if nullish title = false && jsTrim (jsToString title) ≠ "" then jsTrim (jsToString title)
        else randomFileName ext randId
      match getFileSizeFromPhoto result with
      | Except.error e => Except.error e
      | Except.ok fileSize =>
        let messageId := propOf result "message_id"
        let writesRes : Except String (List KVWrite) :=
          match env.img_url with
          | some _ =>
            (match putO with
             | PutOutcome.ok =>
               Except.ok
                 [{ key := kvKey, value := ""
                    metadata := JVal.obj
                      [("TimeStamp", JVal.num now), ("ListType", JVal.str "None"),
                       ("Label", JVal.str "None"), ("liked", JVal.bool false),
                       ("fileName", JVal.str fileName), ("fileSize", fileSize),
                       ("storageType", JVal.str "telegram"),
                       ("telegramMessageId", messageId)] }]
             | PutOutcome.fail m => Except.error m)
          | none => Except.ok []
        match writesRes with
        | Except.error e => Except.error e
        | Except.ok ws =>
          Except.ok
            ({ url := imageUrl, success := true, error := none
               src := some (baseUrl ++ "/file/" ++ kvKey)
               fileName := some (JVal.str fileName) }, ws)

/-- Lines 85–142 of `processOne`: the remote call and response handling.
`!data.ok || !data.result` evaluates `data.ok` first (raising on a nullish
body), reads `data.result` only when `data.ok` was truthy, and takes
`data.description || "Telegram API error"` as the failure message. -/
def processFetch (imageUrl : JVal) (urlS : String) (title : JVal) (env : Env)
    (baseUrl : String) (fetchO : FetchOutcome) (putO : PutOutcome) (now : Int)
    (randId : String) : Except String (IngestionResult × List KVWrite) :=
  match fetchO with
  | FetchOutcome.netErr m =>
    Except.ok (mkFail imageUrl (jsOr m (JVal.str "network error")), [])
  | FetchOutcome.resp none =>
    Except.ok (mkFail imageUrl (JVal.str "invalid response from Telegram"), [])
  | FetchOutcome.resp (some data) =>
    match getProp data "ok" with
    | Except.error e => Except.error e
    | Except.ok dOk =>
      if truthy dOk = false then
        match getProp data "description" with
        | Except.error e => Except.error e
        | Except.ok desc =>
          Except.ok (mkFail imageUrl (jsOr desc (JVal.str "Telegram API error")), [])
      else
        match getProp data "result" with
        | Except.error e => Except.error e
        | Except.ok dResult =>
          if truthy dResult = false then
            match getProp data "description" with
            | Except.error e => Except.error e
            | Except.ok desc =>
              Except.ok (mkFail imageUrl (jsOr desc (JVal.str "Telegram API error")), [])
          else processResult imageUrl urlS title env baseUrl dResult putO now randId

/-- `async function processOne(item, env, baseUrl)` (upload file, lines
79–143).  The leading destructuring `const { url: imageUrl, title } = item`
raises on a nullish item; `if (!imageUrl || typeof imageUrl !== "string")`
yields the "missing or invalid url" failure.  `fetchO`/`putO`/`now`/`randId`
stand for the outcomes of the fetch, the store put, `Date.now()` and
`Math.random()`. -/
def processOne (item : JVal) (env : Env) (baseUrl : String) (fetchO : FetchOutcome)
    (putO : PutOutcome) (now : Int) (randId : String) :
    Except String (IngestionResult × List KVWrite) :=
  if nullish item then
    Except.error "TypeError: cannot destructure property url of null or undefined item"
  else
    let imageUrl := propOf item "url"
    let title := propOf item "title"
    match imageUrl with
    | JVal.str urlS =>
      if urlS = "" then Except.ok (mkFail imageUrl (JVal.str "missing or invalid url"), [])
      else processFetch imageUrl urlS title env baseUrl fetchO putO now randId
    | _ => Except.ok (mkFail imageUrl (JVal.str "missing or invalid url"), [])

/-- The per-item external world for a batch: the fetch outcome, put outcome,
clock reading and random id consumed by item number `i`. -/
structure ItemWorld where
  fetchO : FetchOutcome
  putO : PutOutcome
  now : Int
  randId : String

/-- The `for (const item of list)` loop of `onRequestPost`: sequential
`processOne` calls, collecting one result per item in input order; any raise
aborts the whole handler. -/
def processAll (env : Env) (baseUrl : String) (world : Nat → ItemWorld) :
    Nat → List JVal → Except String (List IngestionResult)
  | _, [] => Except.ok []
  | i, it :: rest =>
    let w := world i
    match processOne it env baseUrl w.fetchO w.putO w.now w.randId with
    | Except.error e => Except.error e
    | Except.ok (one, _) =>
      match processAll env baseUrl world (i + 1) rest with
      | Except.error e => Except.error e
      | Except.ok others => Except.ok (one :: others)

/-- Serialize an `IngestionResult` to its JSON response shape. -/
def ingestionResultToJVal (r : IngestionResult) : JVal :=
  JVal.obj
    ([("url", r.url), ("success", JVal.bool r.success)] ++
      (match r.error with | some e => [("error", e)] | none => []) ++
      (match r.src with | some s => [("src", JVal.str s)] | none => []) ++
      (match r.fileName with | some f => [("fileName", f)] | none => []))

/-- `export async function onRequestPost(context)` (upload file, lines
145–178): auth gate, bot-credential configuration gate, body parsing
(`bodyO = none` models a rejecting `request.json()`), the `list` shape check,
then the sequential ingestion loop. -/
def onRequestPost (env : Env) (origin : String) (pwdParam authHeader : Option String)
    (bodyO : Option JVal) (world : Nat → ItemWorld) : Except String Response :=
  if checkAuth env pwdParam authHeader = false then
    Except.ok (errResponse "Unauthorized" 401)
  else if envTruthy env.TG_Bot_Token = false || envTruthy env.TG_Chat_ID = false then
    Except.ok (errResponse "TG_Bot_Token or TG_Chat_ID not configured" 500)
  else
    match bodyO with
    | none => Except.ok (errResponse "Invalid JSON body" 400)
    | some body =>
      match propOf body "list" with
      | JVal.arr [] =>
        Except.ok
          (errResponse "body must be \x7b list: [ \x7b url, title? \x7d ] \x7d with at least one item" 400)
      | JVal.arr (it :: items) =>
        (match processAll env origin world 0 (it :: items) with
         | Except.error e => Except.error e
         | Except.ok results =>
           Except.ok
             (jsonResponse (JVal.obj [("results", JVal.arr (results.map ingestionResultToJVal))])
               200))
      | _ =>
        Except.ok
          (errResponse "body must be \x7b list: [ \x7b url, title? \x7d ] \x7d with at least one item" 400)

/-- `x.file_size || 0`, the size key both photo reducers compare. -/
def szOf (v : JVal) : JVal := jsOr (propOf v "file_size") (JVal.num 0)

/-- Whether a variant's reported size (`file_size || 0`) is an actual
number — the shape every JSON-carried Telegram size has. -/
def sizeIsNumber (v : JVal) : Bool :=
  match szOf v with
  | JVal.num _ => true
  | _ => false

/-- Safety condition on a remote-API result value: when its `photo` field is
an array, no element is nullish.  A nullish element makes the source's
`reduce` raise when reading `cur.file_size`. -/
def photoOk (result : JVal) : Bool :=
  match propOf result "photo" with
  | JVal.arr xs => xs.all (fun v => !nullish v)
  | _ => true

/-- Safety condition on a fetch outcome: a parsed response body must not be
JSON `null` (reading `data.ok` on it raises) and its `result`'s photo list
must satisfy `photoOk`. -/
def respSafe : FetchOutcome → Bool
  | FetchOutcome.netErr _ => true
  | FetchOutcome.resp none => true
  | FetchOutcome.resp (some d) => !nullish d && photoOk (propOf d "result")

/-! ### Helper lemmas -/

theorem truthy_not_nullish {v : JVal} (h : truthy v = true) : nullish v = false := by
  cases v <;> simp_all [truthy, nullish]

theorem getProp_ok {v : JVal} (k : String) (h : nullish v = false) :
    getProp v k = Except.ok (propOf v k) := by
  simp [getProp, h]

theorem truthy_jsOr_right {a b : JVal} (h : truthy b = true) : truthy (jsOr a b) = true := by
  unfold jsOr
  split <;> simp_all

theorem listAllKeysFrom_flatten :
    ∀ (n : Nat) (s : StoreModel) (i : Nat), s.pages.length - i ≤ n →
      listAllKeysFrom s i = (s.pages.drop i).flatten := by
  intro n
  induction n with
  | zero =>
    intro s i h
    have hle : s.pages.length ≤ i := by omega
    rw [listAllKeysFrom]
    have hc : kvListComplete s i = true := by
      simp only [kvListComplete, decide_eq_true_eq]
      omega
    rw [if_pos hc]
    have hdrop : s.pages.drop i = [] := List.drop_eq_nil_of_le hle
    simp [kvListKeys, hdrop]
  | succ n ih =>
    intro s i h
    rw [listAllKeysFrom]
    by_cases hc : kvListComplete s i = true
    · rw [if_pos hc]
      simp only [kvListComplete, decide_eq_true_eq] at hc
      rcases Nat.lt_or_ge i s.pages.length with hlt | hge
      · have hdrop := List.drop_eq_getElem_cons hlt
        have hdrop1 : s.pages.drop (i + 1) = [] := List.drop_eq_nil_of_le (by omega)
        rw [hdrop1] at hdrop
        rw [hdrop, List.flatten_cons, List.flatten_nil, List.append_nil]
        simp only [kvListKeys, hdrop, List.headD_cons]
      · have hdrop : s.pages.drop i = [] := List.drop_eq_nil_of_le hge
        rw [hdrop, List.flatten_nil]
        simp only [kvListKeys, hdrop, List.headD_nil]
    · rw [if_neg hc]
      simp only [kvListComplete, decide_eq_true_eq] at hc
      have hlt : i < s.pages.length := by omega
      have hrec := ih s (i + 1) (by omega)
      have hdrop := List.drop_eq_getElem_cons hlt
      rw [hrec, hdrop, List.flatten_cons]
      have hk : kvListKeys s i = s.pages[i] := by
        simp only [kvListKeys, hdrop, List.headD_cons]
      rw [hk]

/-! ### Claim theorems -/

/-- C6: for every store whose `list` operation serves its keys in pages of at
most the fixed page size (1000), each page accompanied by either a completion
signal or a continuation cursor, the pagination walker `listAllKeys` called
with no starting cursor returns exactly the store's keys — every page's names
appended in store enumeration order, the walk stopping at the completion
signal — so the number of collected names is the total number of keys. -/
theorem listAllKeys_collects_all_pages (s : StoreModel)
    (_hpage : s.pages.all (fun p => decide (p.length ≤ LIST_PAGE_SIZE)) = true) :
    listAllKeys s none = s.pages.flatten ∧
      (listAllKeys s none).length = (s.pages.map List.length).sum := by
  have h : listAllKeys s none = s.pages.flatten := by
    unfold listAllKeys
    simpa using listAllKeysFrom_flatten (s.pages.length) s 0 (by omega)
  refine ⟨h, ?_⟩
  rw [h, List.length_flatten]

/-- Concrete run of `listAllKeys_collects_all_pages`: a store with three keys
split across two pages yields exactly the three names in order. -/
theorem listAllKeys_collects_all_pages_witness :
    listAllKeys ⟨[["a", "b"], ["c"]], fun _ => none⟩ none = [["a", "b"], ["c"]].flatten ∧
      (listAllKeys ⟨[["a", "b"], ["c"]], fun _ => none⟩ none).length =
        ([["a", "b"], ["c"]].map List.length).sum :=
  listAllKeys_collects_all_pages ⟨[["a", "b"], ["c"]], fun _ => none⟩ (by decide)

theorem fileNameRes_obj_empty (m : JVal) (k : String) :
    fileNameRes m (JVal.obj []) k =
      Except.ok
        (if truthy (propOf m "fileName") then propOf m "fileName" else JVal.str k) := by
  unfold fileNameRes
  by_cases hf : truthy (propOf m "fileName") = true
  · rw [if_pos hf, if_pos hf]
  · rw [if_neg hf, if_neg hf]
    rfl

theorem uploadTimeRes_obj_empty (m : JVal) :
    uploadTimeRes m (JVal.obj []) =
      Except.ok
        (if nullish (propOf m "TimeStamp") = false then propOf m "TimeStamp" else JVal.null) := by
  unfold uploadTimeRes
  by_cases hts : nullish (propOf m "TimeStamp") = false
  · rw [if_pos hts, if_pos hts]
  · rw [if_neg hts, if_neg hts]
    rfl

theorem buildItem_empty_extra (origin k : String) (metadata : JVal) (vt : Option String)
    (hex : parseExtra vt = JVal.obj []) :
    buildItem origin k metadata vt = Except.ok
      { key := k
        url := origin ++ "/file/" ++ encodeURIComponent k
        fileName :=
          if truthy (propOf (jsOr metadata (JVal.obj [])) "fileName") then
            propOf (jsOr metadata (JVal.obj [])) "fileName"
          else JVal.str k
        uploadTime :=
          coerceTime
            (if nullish (propOf (jsOr metadata (JVal.obj [])) "TimeStamp") = false then
              propOf (jsOr metadata (JVal.obj [])) "TimeStamp"
            else JVal.null)
        storageType :=
          if truthy (propOf (jsOr metadata (JVal.obj [])) "storageType") then
            some (propOf (jsOr metadata (JVal.obj [])) "storageType")
          else none } := by
  simp only [buildItem, hex, fileNameRes_obj_empty, uploadTimeRes_obj_empty]

/-- C8: for every key, metadata bag and non-empty value string that is not
valid JSON, the record normalizer neither raises nor surfaces a parse error:
the malformed payload is treated as no extra data (the result is the same as
for an absent payload), and the resulting item carries only metadata-derived
fields — `fileName` falls back to the key when the metadata has no truthy
`fileName`, and `uploadTime` to `null` when the metadata `TimeStamp` is
nullish. -/
theorem buildItem_malformed_payload_ignored (origin keyName : String) (metadata : JVal)
    (s : String) (_hne : s ≠ "") (hbad : tryParseJSON s = none) :
    buildItem origin keyName metadata (some s) = buildItem origin keyName metadata none ∧
      ∃ it, buildItem origin keyName metadata (some s) = Except.ok it ∧
        (truthy (propOf (jsOr metadata (JVal.obj [])) "fileName") = false →
          it.fileName = JVal.str keyName) ∧
        (nullish (propOf (jsOr metadata (JVal.obj [])) "TimeStamp") = true →
          it.uploadTime = JVal.null) := by
  have hex : parseExtra (some s) = JVal.obj [] := by
    by_cases ht : jsTrim s = "" <;> simp [parseExtra, ht, hbad]
  have hex0 : parseExtra none = JVal.obj [] := rfl
  constructor
  · rw [buildItem_empty_extra _ _ _ _ hex, buildItem_empty_extra _ _ _ _ hex0]
  · refine ⟨_, buildItem_empty_extra _ _ _ _ hex, ?_, ?_⟩
    · intro hf
      simp [hf]
    · intro hts
      show coerceTime
          (if nullish (propOf (jsOr metadata (JVal.obj [])) "TimeStamp") = false then
            propOf (jsOr metadata (JVal.obj [])) "TimeStamp"
          else JVal.null) = JVal.null
      rw [hts]
      rfl

/-- Concrete run of `buildItem_malformed_payload_ignored` on the invalid
payload text beginning with an unclosed brace. -/
theorem buildItem_malformed_payload_ignored_witness :
    buildItem "https://o" "k" JVal.null (some "\x7bbad") =
        buildItem "https://o" "k" JVal.null none ∧
      ∃ it, buildItem "https://o" "k" JVal.null (some "\x7bbad") = Except.ok it ∧
        (truthy (propOf (jsOr JVal.null (JVal.obj [])) "fileName") = false →
          it.fileName = JVal.str "k") ∧
        (nullish (propOf (jsOr JVal.null (JVal.obj [])) "TimeStamp") = true →
          it.uploadTime = JVal.null) :=
  buildItem_malformed_payload_ignored "https://o" "k" JVal.null "\x7bbad" (by decide) rfl

theorem fileNameRes_ok (m extra : JVal) (k : String) (hx : nullish extra = false) :
    fileNameRes m extra k =
      Except.ok
        (if truthy (propOf m "fileName") then propOf m "fileName"
        else if truthy (propOf extra "fileName") then propOf extra "fileName"
        else JVal.str k) := by
  unfold fileNameRes
  by_cases hf : truthy (propOf m "fileName") = true
  · rw [if_pos hf, if_pos hf]
  · rw [if_neg hf, if_neg hf, getProp_ok _ hx]

theorem uploadTimeRes_ok (m extra : JVal) (hx : nullish extra = false) :
    uploadTimeRes m extra =
      Except.ok
        (if nullish (propOf m "TimeStamp") = false then propOf m "TimeStamp"
        else if nullish (propOf extra "uploadTime") = false then propOf extra "uploadTime"
        else if nullish (propOf extra "TimeStamp") = false then propOf extra "TimeStamp"
        else JVal.null) := by
  unfold uploadTimeRes
  by_cases hts : nullish (propOf m "TimeStamp") = false
  · rw [if_pos hts, if_pos hts]
  · rw [if_neg hts, if_neg hts, getProp_ok _ hx]
    show (if nullish (propOf extra "uploadTime") = false then Except.ok (propOf extra "uploadTime")
      else match getProp extra "TimeStamp" with
        | Except.error e => Except.error e
        | Except.ok et => Except.ok (if nullish et = false then et else JVal.null)) =
      Except.ok (if nullish (propOf extra "uploadTime") = false then propOf extra "uploadTime"
        else if nullish (propOf extra "TimeStamp") = false then propOf extra "TimeStamp"
        else JVal.null)
    by_cases h2 : nullish (propOf extra "uploadTime") = false
    · rw [if_pos h2, if_pos h2]
    · rw [if_neg h2, if_neg h2, getProp_ok _ hx]

theorem buildItem_ok (origin k : String) (metadata : JVal) (vt : Option String)
    (hx : nullish (parseExtra vt) = false) :
    buildItem origin k metadata vt = Except.ok
      { key := k
        url := origin ++ "/file/" ++ encodeURIComponent k
        fileName :=
          if truthy (propOf (jsOr metadata (JVal.obj [])) "fileName") then
            propOf (jsOr metadata (JVal.obj [])) "fileName"
          else if truthy (propOf (parseExtra vt) "fileName") then propOf (parseExtra vt) "fileName"
          else JVal.str k
        uploadTime :=
          coerceTime
            (if nullish (propOf (jsOr metadata (JVal.obj [])) "TimeStamp") = false then
              propOf (jsOr metadata (JVal.obj [])) "TimeStamp"
            else if nullish (propOf (parseExtra vt) "uploadTime") = false then
              propOf (parseExtra vt) "uploadTime"
            else if nullish (propOf (parseExtra vt) "TimeStamp") = false then
              propOf (parseExtra vt) "TimeStamp"
            else JVal.null)
        storageType :=
          if truthy (propOf (jsOr metadata (JVal.obj [])) "storageType") then
            some (propOf (jsOr metadata (JVal.obj [])) "storageType")
          else none } := by
  simp only [buildItem, fileNameRes_ok _ _ _ hx, uploadTimeRes_ok _ _ hx]

/-- C5 counterexample: with no metadata and the value payload being the
valid JSON text `null`, the claim predicts `fileName = key` ("else the key
itself"), but `buildItem` raises a TypeError from the `extra.fileName` read
(line 49) instead of producing any item. -/
theorem buildItem_fileName_null_payload_cex :
    buildItem "https://o" "key1" JVal.null (some "null") =
      Except.error "TypeError: cannot read properties of null reading fileName" := by rfl

/-- C5 (amended): for every (metadata, value) pair whose value payload does
not parse to JSON `null` (on a null payload the normalizer raises a
TypeError once it falls through to the payload), the output `fileName` is
the metadata `fileName` when given as a truthy value, else the value
payload's `fileName` when truthy, else the key itself; in particular
metadata `fileName "a"` with payload fileName `"b"` yields `"a"`, no
metadata fileName with payload fileName `"b"` yields `"b"`, and neither
yields the key. -/
theorem buildItem_fileName_precedence :
    (∀ (origin keyName : String) (metadata : JVal) (vt : Option String),
      nullish (parseExtra vt) = false →
      ∃ it, buildItem origin keyName metadata vt = Except.ok it ∧
        it.fileName =
          (if truthy (propOf (jsOr metadata (JVal.obj [])) "fileName") then
            propOf (jsOr metadata (JVal.obj [])) "fileName"
          else if truthy (propOf (parseExtra vt) "fileName") then
            propOf (parseExtra vt) "fileName"
          else JVal.str keyName)) ∧
    (∃ it,
      buildItem "https://o" "k" (JVal.obj [("fileName", JVal.str "a")])
          (some "\x7b\"fileName\":\"b\"\x7d") = Except.ok it ∧
        it.fileName = JVal.str "a") ∧
    (∃ it,
      buildItem "https://o" "k" JVal.null (some "\x7b\"fileName\":\"b\"\x7d") = Except.ok it ∧
        it.fileName = JVal.str "b") ∧
    (∃ it, buildItem "https://o" "k" JVal.null none = Except.ok it ∧
      it.fileName = JVal.str "k") := by
  refine ⟨fun origin keyName metadata vt hx => ⟨_, buildItem_ok origin keyName metadata vt hx, rfl⟩,
    ⟨_, by rfl, by rfl⟩, ⟨_, by rfl, by rfl⟩, ⟨_, by rfl, by rfl⟩⟩

/-- Concrete run of the general clause of `buildItem_fileName_precedence`:
an object payload, metadata carrying a truthy fileName. -/
theorem buildItem_fileName_precedence_witness :
    ∃ it,
      buildItem "https://w" "kw" (JVal.obj [("fileName", JVal.str "meta")])
          (some "\x7b\"fileName\":\"pay\"\x7d") = Except.ok it ∧
        it.fileName =
          (if truthy (propOf (jsOr (JVal.obj [("fileName", JVal.str "meta")]) (JVal.obj []))
                "fileName") then
            propOf (jsOr (JVal.obj [("fileName", JVal.str "meta")]) (JVal.obj [])) "fileName"
          else if truthy (propOf (parseExtra (some "\x7b\"fileName\":\"pay\"\x7d")) "fileName") then
            propOf (parseExtra (some "\x7b\"fileName\":\"pay\"\x7d")) "fileName"
          else JVal.str "kw") :=
  buildItem_fileName_precedence.1 "https://w" "kw" (JVal.obj [("fileName", JVal.str "meta")])
    (some "\x7b\"fileName\":\"pay\"\x7d") (by rfl)

/-- C4 counterexample: metadata carries `TimeStamp: 5` and the value payload
is the valid JSON text `null`; the claim predicts a resolved uploadTime of 5,
but `buildItem` raises a TypeError (the `extra.fileName` read on line 49 runs
first and the payload is null), producing no item at all. -/
theorem buildItem_uploadTime_null_payload_cex :
    buildItem "https://o" "k2" (JVal.obj [("TimeStamp", JVal.num 5)]) (some "null") =
      Except.error "TypeError: cannot read properties of null reading fileName" := by rfl

/-- C4 (amended): for every (metadata, value) pair whose value payload does
not parse to JSON `null`, the resolved uploadTime is the metadata
`TimeStamp` when that field is non-nullish, else the payload's
`uploadTime`, else the payload's `TimeStamp`, else null; a numeric resolved
timestamp passes through unchanged and a non-null non-numeric one is parsed
as a base-10 integer (possibly the NaN sentinel).  In particular metadata
`TimeStamp: 5` wins over payload `uploadTime: 9` and `TimeStamp: 9`, and
with no metadata TimeStamp the payload's `uploadTime: 9` wins over its
`TimeStamp: 19`.  When the payload does parse to JSON `null`, the
short-circuits decide the outcome: if the metadata `fileName` is truthy and
the metadata `TimeStamp` is non-nullish, the payload is never read and the
metadata `TimeStamp` still wins; otherwise the normalizer raises a
TypeError at the first payload read instead of resolving any timestamp. -/
theorem buildItem_uploadTime_precedence :
    (∀ (origin keyName : String) (metadata : JVal) (vt : Option String),
      nullish (parseExtra vt) = false →
      ∃ it, buildItem origin keyName metadata vt = Except.ok it ∧
        it.uploadTime =
          (let resolved :=
            if nullish (propOf (jsOr metadata (JVal.obj [])) "TimeStamp") = false then
              propOf (jsOr metadata (JVal.obj [])) "TimeStamp"
            else if nullish (propOf (parseExtra vt) "uploadTime") = false then
              propOf (parseExtra vt) "uploadTime"
            else if nullish (propOf (parseExtra vt) "TimeStamp") = false then
              propOf (parseExtra vt) "TimeStamp"
            else JVal.null
          if nullish resolved then JVal.null
          else if isNumberJ resolved then resolved
          else parseIntTen (jsToString resolved))) ∧
    (∃ it,
      buildItem "https://o" "k" (JVal.obj [("TimeStamp", JVal.num 5)])
          (some "\x7b\"uploadTime\":9,\"TimeStamp\":9\x7d") = Except.ok it ∧
        it.uploadTime = JVal.num 5) ∧
    (∃ it,
      buildItem "https://o" "k" JVal.null
          (some "\x7b\"uploadTime\":9,\"TimeStamp\":19\x7d") = Except.ok it ∧
        it.uploadTime = JVal.num 9) ∧
    (∀ (origin keyName : String) (metadata : JVal) (vt : Option String),
      parseExtra vt = JVal.null →
      truthy (propOf (jsOr metadata (JVal.obj [])) "fileName") = true →
      nullish (propOf (jsOr metadata (JVal.obj [])) "TimeStamp") = false →
      ∃ it, buildItem origin keyName metadata vt = Except.ok it ∧
        it.uploadTime = coerceTime (propOf (jsOr metadata (JVal.obj [])) "TimeStamp")) ∧
    (∀ (origin keyName : String) (metadata : JVal) (vt : Option String),
      parseExtra vt = JVal.null →
      (truthy (propOf (jsOr metadata (JVal.obj [])) "fileName") = false ∨
        nullish (propOf (jsOr metadata (JVal.obj [])) "TimeStamp") = true) →
      ∃ e, buildItem origin keyName metadata vt = Except.error e) := by
  refine ⟨fun origin keyName metadata vt hx =>
      ⟨_, buildItem_ok origin keyName metadata vt hx, rfl⟩,
    ⟨_, by rfl, by rfl⟩, ⟨_, by rfl, by rfl⟩, ?_, ?_⟩
  · intro origin keyName metadata vt hx hf hts
    have h1 : fileNameRes (jsOr metadata (JVal.obj [])) JVal.null keyName =
        Except.ok (propOf (jsOr metadata (JVal.obj [])) "fileName") := by
      unfold fileNameRes
      rw [if_pos hf]
    have h2 : uploadTimeRes (jsOr metadata (JVal.obj [])) JVal.null =
        Except.ok (propOf (jsOr metadata (JVal.obj [])) "TimeStamp") := by
      unfold uploadTimeRes
      rw [if_pos hts]
    have hb : buildItem origin keyName metadata vt = Except.ok
        { key := keyName
          url := origin ++ "/file/" ++ encodeURIComponent keyName
          fileName := propOf (jsOr metadata (JVal.obj [])) "fileName"
          uploadTime := coerceTime (propOf (jsOr metadata (JVal.obj [])) "TimeStamp")
          storageType :=
            if truthy (propOf (jsOr metadata (JVal.obj [])) "storageType") then
              some (propOf (jsOr metadata (JVal.obj [])) "storageType")
            else none } := by
      simp only [buildItem, hx, h1, h2]
    exact ⟨_, hb, rfl⟩
  · intro origin keyName metadata vt hx hd
    by_cases hf : truthy (propOf (jsOr metadata (JVal.obj [])) "fileName") = false
    · have h1 : fileNameRes (jsOr metadata (JVal.obj [])) JVal.null keyName =
          Except.error "TypeError: cannot read properties of null reading fileName" := by
        unfold fileNameRes
        rw [if_neg (by rw [hf]; exact Bool.false_ne_true)]
        rfl
      refine ⟨"TypeError: cannot read properties of null reading fileName", ?_⟩
      simp only [buildItem, hx, h1]
    · have hf' : truthy (propOf (jsOr metadata (JVal.obj [])) "fileName") = true := by
        revert hf
        cases truthy (propOf (jsOr metadata (JVal.obj [])) "fileName") <;> simp
      have hts : nullish (propOf (jsOr metadata (JVal.obj [])) "TimeStamp") = true := by
        rcases hd with h | h
        · exact absurd h hf
        · exact h
      have h1 : fileNameRes (jsOr metadata (JVal.obj [])) JVal.null keyName =
          Except.ok (propOf (jsOr metadata (JVal.obj [])) "fileName") := by
        unfold fileNameRes
        rw [if_pos hf']
      have h2 : uploadTimeRes (jsOr metadata (JVal.obj [])) JVal.null =
          Except.error "TypeError: cannot read properties of null reading uploadTime" := by
        unfold uploadTimeRes
        rw [if_neg (by simp [hts])]
        rfl
      refine ⟨"TypeError: cannot read properties of null reading uploadTime", ?_⟩
      simp only [buildItem, hx, h1, h2]

/-- Concrete runs of `buildItem_uploadTime_precedence`: the general clause
on a payload whose timestamp is a numeric string (exercising the `parseInt`
coercion), and the null-payload clause with a truthy metadata fileName and
`TimeStamp: 5`, where the payload is never read and 5 still wins. -/
theorem buildItem_uploadTime_precedence_witness :
    (∃ it,
      buildItem "https://w" "kw" JVal.null (some "\x7b\"uploadTime\":\"77x\"\x7d") =
          Except.ok it ∧
        it.uploadTime =
          (let resolved :=
            if nullish (propOf (jsOr JVal.null (JVal.obj [])) "TimeStamp") = false then
              propOf (jsOr JVal.null (JVal.obj [])) "TimeStamp"
            else if nullish (propOf (parseExtra (some "\x7b\"uploadTime\":\"77x\"\x7d"))
                "uploadTime") = false then
              propOf (parseExtra (some "\x7b\"uploadTime\":\"77x\"\x7d")) "uploadTime"
            else if nullish (propOf (parseExtra (some "\x7b\"uploadTime\":\"77x\"\x7d"))
                "TimeStamp") = false then
              propOf (parseExtra (some "\x7b\"uploadTime\":\"77x\"\x7d")) "TimeStamp"
            else JVal.null
          if nullish resolved then JVal.null
          else if isNumberJ resolved then resolved
          else parseIntTen (jsToString resolved))) ∧
    (∃ it,
      buildItem "https://w" "kw"
          (JVal.obj [("fileName", JVal.str "x"), ("TimeStamp", JVal.num 5)]) (some "null") =
          Except.ok it ∧
        it.uploadTime =
          coerceTime
            (propOf
              (jsOr (JVal.obj [("fileName", JVal.str "x"), ("TimeStamp", JVal.num 5)])
                (JVal.obj []))
              "TimeStamp")) :=
  ⟨buildItem_uploadTime_precedence.1 "https://w" "kw" JVal.null
    (some "\x7b\"uploadTime\":\"77x\"\x7d") (by rfl),
   buildItem_uploadTime_precedence.2.2.2.1 "https://w" "kw"
    (JVal.obj [("fileName", JVal.str "x"), ("TimeStamp", JVal.num 5)]) (some "null") (by rfl)
    (by rfl) (by rfl)⟩

theorem truthy_ne_empty_str {v : JVal} (h : truthy v = true) : v ≠ JVal.str "" := by
  intro he
  subst he
  simp [truthy] at h

/-- C10: the record normalizer's fileName precedence is decided by
truthiness, not presence: a metadata `fileName` that is the empty string
behaves exactly like an absent one (skipped in favour of the value payload),
an empty value-payload `fileName` is likewise skipped in favour of the key,
and an empty string is never returned as `fileName` when the key is
non-empty. -/
theorem fileName_truthiness_precedence :
    (∀ (origin key : String) (rest : List (String × JVal)) (vt : Option String),
      buildItem origin key (JVal.obj (("fileName", JVal.str "") :: rest)) vt =
        buildItem origin key (JVal.obj (("fileName", JVal.undef) :: rest)) vt) ∧
    (∀ (origin key : String) (metadata : JVal),
      truthy (propOf (jsOr metadata (JVal.obj [])) "fileName") = false →
      ∃ it, buildItem origin key metadata (some "\x7b\"fileName\":\"\"\x7d") = Except.ok it ∧
        it.fileName = JVal.str key) ∧
    (∀ (origin key : String) (metadata : JVal) (vt : Option String) (it : ListingItem),
      key ≠ "" → buildItem origin key metadata vt = Except.ok it →
      it.fileName ≠ JVal.str "") := by
  refine ⟨?_, ?_, ?_⟩
  · intro origin key rest vt
    rfl
  · intro origin key metadata hm
    refine ⟨_, buildItem_ok origin key metadata _ (by rfl), ?_⟩
    rw [if_neg (by rw [hm]; exact Bool.false_ne_true)]
    rfl
  · intro origin key metadata vt it hk hok
    simp only [buildItem] at hok
    split at hok
    · exact absurd hok (by simp)
    · rename_i fn heq
      split at hok
      · exact absurd hok (by simp)
      · rename_i ut hequ
        have hit : it.fileName = fn := by
          injection hok with h1
          rw [← h1]
        rw [hit]
        unfold fileNameRes at heq
        split at heq
        · rename_i hcond
          injection heq with h2
          rw [← h2]
          exact truthy_ne_empty_str hcond
        · rename_i hcond
          split at heq
          · exact absurd heq (by simp)
          · rename_i ef hef
            injection heq with h2
            rw [← h2]
            by_cases het : truthy ef = true
            · rw [if_pos het]
              exact truthy_ne_empty_str het
            · rw [if_neg het]
              intro he
              injection he with h3
              exact hk h3

/-- Concrete runs of all three clauses of `fileName_truthiness_precedence`. -/
theorem fileName_truthiness_precedence_witness :
    buildItem "https://w" "kw" (JVal.obj [("fileName", JVal.str "")]) none =
        buildItem "https://w" "kw" (JVal.obj [("fileName", JVal.undef)]) none ∧
      (∃ it,
        buildItem "https://w" "kw" JVal.null (some "\x7b\"fileName\":\"\"\x7d") = Except.ok it ∧
          it.fileName = JVal.str "kw") ∧
      ({ key := "kw", url := "https://w" ++ "/file/" ++ encodeURIComponent "kw"
         fileName := JVal.str "kw", uploadTime := JVal.null,
         storageType := none : ListingItem }).fileName ≠ JVal.str "" :=
  ⟨fileName_truthiness_precedence.1 "https://w" "kw" [] none,
   fileName_truthiness_precedence.2.1 "https://w" "kw" JVal.null (by rfl),
   fileName_truthiness_precedence.2.2 "https://w" "kw" JVal.null none _ (by decide) (by rfl)⟩

theorem stepId_eq_stepSize : largerStepId = largerStepSize := rfl

theorem reducePhotoId_eq_size :
    ∀ (ps : List JVal) (p : JVal), reducePhotoId p ps = reducePhotoSize p ps := by
  intro ps
  induction ps with
  | nil => intro p; rfl
  | cons c rest ih =>
    intro p
    simp only [reducePhotoId, reducePhotoSize, stepId_eq_stepSize]
    cases largerStepSize p c
    · rfl
    · exact ih _

theorem largerStepId_mem {p c q : JVal} (h : largerStepId p c = Except.ok q) :
    q = p ∨ q = c := by
  unfold largerStepId at h
  split at h
  · split at h
    · exact absurd h (by simp)
    · injection h with h1
      rw [← h1]
      split
      · exact Or.inl rfl
      · exact Or.inr rfl
  · injection h with h1
    exact Or.inr h1.symm

theorem reducePhotoId_mem :
    ∀ (ps : List JVal) (p w : JVal), reducePhotoId p ps = Except.ok w → w = p ∨ w ∈ ps := by
  intro ps
  induction ps with
  | nil =>
    intro p w h
    injection h with h1
    exact Or.inl h1.symm
  | cons c rest ih =>
    intro p w h
    simp only [reducePhotoId] at h
    rcases hstep : largerStepId p c with e | nxt
    · rw [hstep] at h
      exact absurd h (by simp)
    · rw [hstep] at h
      rcases ih nxt w h with h1 | h1
      · rcases largerStepId_mem hstep with h2 | h2
        · exact Or.inl (h1.trans h2)
        · exact Or.inr (by rw [h1, h2]; exact List.mem_cons_self c rest)
      · exact Or.inr (List.mem_cons_of_mem c h1)

theorem largerStepId_of_truthy {p c : JVal} (hp : truthy p = true) (hc : nullish c = false) :
    largerStepId p c = Except.ok (if jsGT (szOf p) (szOf c) then p else c) := by
  unfold largerStepId
  rw [if_pos hp, getProp_ok _ hc]
  rfl

theorem jsLexLt_irrefl : ∀ xs : List Char, jsLexLt xs xs = false := by
  intro xs
  induction xs with
  | nil => rfl
  | cons a as ih => simp [jsLexLt, ih]

theorem jsGT_irrefl (a : JVal) : jsGT a a = false := by
  cases a with
  | str s =>
    show jsLexLt s.toList s.toList = false
    exact jsLexLt_irrefl s.toList
  | null => rfl
  | undef => rfl
  | nan => rfl
  | bool b => cases b <;> rfl
  | num n => simp [jsGT, jsToNumber]
  | arr xs => cases xs <;> rfl
  | obj fs => rfl

theorem jsGT_num (x y : Int) : jsGT (JVal.num x) (JVal.num y) = decide (y < x) := rfl

theorem sizeIsNumber_exists {v : JVal} (h : sizeIsNumber v = true) :
    ∃ n, szOf v = JVal.num n := by
  unfold sizeIsNumber at h
  cases hs : szOf v with
  | num n => exact ⟨n, hs ▸ rfl⟩
  | null => rw [hs] at h; simp at h
  | undef => rw [hs] at h; simp at h
  | nan => rw [hs] at h; simp at h
  | bool b => rw [hs] at h; simp at h
  | str st => rw [hs] at h; simp at h
  | arr xs => rw [hs] at h; simp at h
  | obj fs => rw [hs] at h; simp at h

theorem reduce_last_max :
    ∀ (ps : List JVal) (p : JVal),
      truthy p = true → sizeIsNumber p = true →
      ps.all (fun v => truthy v && sizeIsNumber v) = true →
      ∃ w, reducePhotoId p ps = Except.ok w ∧ (w = p ∨ w ∈ ps) ∧ truthy w = true ∧
        sizeIsNumber w = true ∧
        (∀ u, (u = p ∨ u ∈ ps) → jsGT (szOf u) (szOf w) = false) := by
  intro ps
  induction ps with
  | nil =>
    intro p hp hnp _
    refine ⟨p, rfl, Or.inl rfl, hp, hnp, ?_⟩
    intro u hu
    rcases hu with h | h
    · rw [h]; exact jsGT_irrefl _
    · cases h
  | cons c rest ih =>
    intro p hp hnp hall
    simp only [List.all_cons, Bool.and_eq_true] at hall
    obtain ⟨⟨hc, hnc⟩, hrest⟩ := hall
    have hcnn : nullish c = false := truthy_not_nullish hc
    have hstep := largerStepId_of_truthy hp hcnn
    by_cases hgt : jsGT (szOf p) (szOf c) = true
    · rw [if_pos hgt] at hstep
      obtain ⟨w, hred, hmem, htw, hnw, hmax⟩ := ih p hp hnp hrest
      refine ⟨w, ?_, ?_, htw, hnw, ?_⟩
      · simp only [reducePhotoId, hstep]
        exact hred
      · rcases hmem with h | h
        · exact Or.inl h
        · exact Or.inr (List.mem_cons_of_mem c h)
      · intro u hu
        rcases hu with h | h
        · exact hmax u (Or.inl h)
        · rcases List.mem_cons.mp h with h1 | h1
          · subst h1
            have h2 := hmax p (Or.inl rfl)
            obtain ⟨np, hnp'⟩ := sizeIsNumber_exists hnp
            obtain ⟨nc, hnc'⟩ := sizeIsNumber_exists hnc
            obtain ⟨nw, hnw'⟩ := sizeIsNumber_exists hnw
            rw [hnp', hnc', jsGT_num] at hgt
            rw [hnp', hnw', jsGT_num] at h2
            rw [hnc', hnw', jsGT_num]
            simp only [decide_eq_true_eq] at hgt
            simp only [decide_eq_false_iff_not] at h2 ⊢
            omega
          · exact hmax u (Or.inr h1)
    · rw [if_neg hgt] at hstep
      obtain ⟨w, hred, hmem, htw, hnw, hmax⟩ := ih c hc hnc hrest
      refine ⟨w, ?_, ?_, htw, hnw, ?_⟩
      · simp only [reducePhotoId, hstep]
        exact hred
      · rcases hmem with h | h
        · exact Or.inr (by rw [h]; exact List.mem_cons_self c rest)
        · exact Or.inr (List.mem_cons_of_mem c h)
      · intro u hu
        rcases hu with h | h
        · subst h
          have h2 := hmax c (Or.inl rfl)
          obtain ⟨np, hnp'⟩ := sizeIsNumber_exists hnp
          obtain ⟨nc, hnc'⟩ := sizeIsNumber_exists hnc
          obtain ⟨nw, hnw'⟩ := sizeIsNumber_exists hnw
          rw [hnp', hnc', jsGT_num] at hgt
          rw [hnc', hnw', jsGT_num] at h2
          rw [hnp', hnw', jsGT_num]
          simp only [decide_eq_true_eq] at hgt
          simp only [decide_eq_false_iff_not] at h2 ⊢
          omega
        · rcases List.mem_cons.mp h with h1 | h1
          · subst h1
            exact hmax u (Or.inl rfl)
          · exact hmax u (Or.inr h1)

theorem reducePhotoId_append :
    ∀ (ps : List JVal) (p u : JVal),
      reducePhotoId p (ps ++ [u]) =
        (match reducePhotoId p ps with
         | Except.error e => Except.error e
         | Except.ok w => largerStepId w u) := by
  intro ps
  induction ps with
  | nil =>
    intro p u
    simp only [List.nil_append, reducePhotoId]
    cases largerStepId p u <;> rfl
  | cons c rest ih =>
    intro p u
    simp only [List.cons_append, reducePhotoId]
    cases largerStepId p c
    · rfl
    · exact ih _ u

/-- C2 counterexample: variants with sizes [100, 300, 300] and file ids
`a`, `b`, `c`.  The claim says the first variant with size 300 (file id `b`)
is selected; the code's `prev > cur ? prev : cur` reduction moves to the
later element on equal sizes and selects the last one, file id `c`. -/
theorem getFileIdFromPhoto_tie_cex :
    getFileIdFromPhoto
        (JVal.obj [("photo", JVal.arr
          [JVal.obj [("file_id", JVal.str "a"), ("file_size", JVal.num 100)],
           JVal.obj [("file_id", JVal.str "b"), ("file_size", JVal.num 300)],
           JVal.obj [("file_id", JVal.str "c"), ("file_size", JVal.num 300)]])]) =
      Except.ok (JVal.str "c") ∧ JVal.str "c" ≠ JVal.str "b" := by
  refine ⟨by rfl, ?_⟩
  intro h
  injection h with h2
  exact absurd h2 (by decide)

/-- C2 (amended): for every non-empty list of photo variants (truthy values
whose reported `file_size || 0` is a number, the shape of every
JSON-carried size), the variant selected to obtain the provider file
identifier is one with the largest reported file size, and on ties the
LAST-encountered variant wins: the strict greater-than comparison keeps the
earlier element only on strictly greater size, so a further variant whose
size is not smaller than the current selection replaces it; in particular,
for variants with sizes [100, 300, 300] the last variant with size 300 is
selected (see the counterexample). -/
theorem getFileIdFromPhoto_selects_last_largest :
    ∀ (p : JVal) (ps : List JVal),
      (p :: ps).all (fun v => truthy v && sizeIsNumber v) = true →
      ∃ w, reducePhotoId p ps = Except.ok w ∧ w ∈ p :: ps ∧
        getFileIdFromPhoto (JVal.obj [("photo", JVal.arr (p :: ps))]) =
          Except.ok (propOf w "file_id") ∧
        (∀ u ∈ p :: ps, jsGT (szOf u) (szOf w) = false) ∧
        (∀ u, truthy u = true → jsGT (szOf w) (szOf u) = false →
          reducePhotoId p (ps ++ [u]) = Except.ok u) := by
  intro p ps hall
  have hall' := hall
  simp only [List.all_cons, Bool.and_eq_true] at hall'
  obtain ⟨⟨hp, hnp⟩, hrest⟩ := hall'
  obtain ⟨w, hred, hmem, htw, _, hmax⟩ := reduce_last_max ps p hp hnp hrest
  have hmem' : w ∈ p :: ps := by
    rcases hmem with h | h
    · rw [h]; exact List.mem_cons_self p ps
    · exact List.mem_cons_of_mem p h
  refine ⟨w, hred, hmem', ?_, ?_, ?_⟩
  · show (if truthy (JVal.obj [("photo", JVal.arr (p :: ps))]) = false then Except.ok JVal.null
      else match propOf (JVal.obj [("photo", JVal.arr (p :: ps))]) "photo" with
        | JVal.arr (q :: qs) =>
          (match reducePhotoId q qs with
           | Except.error e => Except.error e
           | Except.ok largest => getProp largest "file_id")
        | _ => Except.ok JVal.null) = Except.ok (propOf w "file_id")
    rw [if_neg (by simp [truthy])]
    show (match reducePhotoId p ps with
      | Except.error e => Except.error e
      | Except.ok largest => getProp largest "file_id") = Except.ok (propOf w "file_id")
    rw [hred]
    exact getProp_ok _ (truthy_not_nullish htw)
  · intro u hu
    rcases List.mem_cons.mp hu with h | h
    · exact hmax u (Or.inl h)
    · exact hmax u (Or.inr h)
  · intro u htu hle
    rw [reducePhotoId_append, hred]
    show largerStepId w u = Except.ok u
    rw [largerStepId_of_truthy htw (truthy_not_nullish htu),
      if_neg (by rw [hle]; exact Bool.false_ne_true)]

/-- Concrete run of `getFileIdFromPhoto_selects_last_largest` on two
variants with sizes 10 and 20. -/
theorem getFileIdFromPhoto_selects_last_largest_witness :
    ∃ w,
      reducePhotoId (JVal.obj [("file_id", JVal.str "s"), ("file_size", JVal.num 10)])
          [JVal.obj [("file_id", JVal.str "t"), ("file_size", JVal.num 20)]] = Except.ok w ∧
        w ∈ (JVal.obj [("file_id", JVal.str "s"), ("file_size", JVal.num 10)]) ::
          [JVal.obj [("file_id", JVal.str "t"), ("file_size", JVal.num 20)]] ∧
        getFileIdFromPhoto
            (JVal.obj [("photo", JVal.arr
              ((JVal.obj [("file_id", JVal.str "s"), ("file_size", JVal.num 10)]) ::
                [JVal.obj [("file_id", JVal.str "t"), ("file_size", JVal.num 20)]]))]) =
          Except.ok (propOf w "file_id") ∧
        (∀ u ∈ (JVal.obj [("file_id", JVal.str "s"), ("file_size", JVal.num 10)]) ::
            [JVal.obj [("file_id", JVal.str "t"), ("file_size", JVal.num 20)]],
          jsGT (szOf u) (szOf w) = false) ∧
        (∀ u, truthy u = true → jsGT (szOf w) (szOf u) = false →
          reducePhotoId (JVal.obj [("file_id", JVal.str "s"), ("file_size", JVal.num 10)])
            ([JVal.obj [("file_id", JVal.str "t"), ("file_size", JVal.num 20)]] ++ [u]) =
            Except.ok u) :=
  getFileIdFromPhoto_selects_last_largest
    (JVal.obj [("file_id", JVal.str "s"), ("file_size", JVal.num 10)])
    [JVal.obj [("file_id", JVal.str "t"), ("file_size", JVal.num 20)]] (by rfl)

/-- C9: `getFileIdFromPhoto` and `getFileSizeFromPhoto` apply an identical
reduction to the same photo-variant list, so for every remote-API result
value either both take the degenerate guard path (`null` / `0`), or both
raise the same error, or there is one variant `w` — the shared reduction's
pick, an element of the list — such that the file identifier is `w`'s
`file_id` and the recorded file size is the same variant's `file_size || 0`
(a missing `file_size` reported as 0). -/
theorem photo_selection_consistent :
    ∀ result : JVal,
      (getFileIdFromPhoto result = Except.ok JVal.null ∧
        getFileSizeFromPhoto result = Except.ok (JVal.num 0)) ∨
      (∃ e, getFileIdFromPhoto result = Except.error e ∧
        getFileSizeFromPhoto result = Except.error e) ∨
      (∃ p ps w, propOf result "photo" = JVal.arr (p :: ps) ∧
        reducePhotoId p ps = Except.ok w ∧ (w = p ∨ w ∈ ps) ∧
        getFileIdFromPhoto result = getProp w "file_id" ∧
        getFileSizeFromPhoto result =
          Except.map (fun fs => jsOr fs (JVal.num 0)) (getProp w "file_size")) := by
  intro result
  by_cases htr : truthy result = false
  · left
    constructor
    · unfold getFileIdFromPhoto
      rw [if_pos htr]
    · unfold getFileSizeFromPhoto
      rw [if_pos htr]
  · rw [Bool.not_eq_false] at htr
    have htr' : (truthy result = false) = False := by simp [htr]
    cases hph : propOf result "photo" with
    | arr xs =>
      cases xs with
      | nil =>
        left
        constructor
        · simp [getFileIdFromPhoto, htr', hph]
        · simp [getFileSizeFromPhoto, htr', hph]
      | cons p ps =>
        cases hred : reducePhotoId p ps with
        | error e =>
          right; left
          refine ⟨e, ?_, ?_⟩
          · simp [getFileIdFromPhoto, htr', hph, hred]
          · simp [getFileSizeFromPhoto, htr', hph, ← reducePhotoId_eq_size, hred]
        | ok w =>
          right; right
          refine ⟨p, ps, w, rfl, hred, reducePhotoId_mem ps p w hred, ?_, ?_⟩
          · simp [getFileIdFromPhoto, htr', hph, hred]
          · simp only [getFileSizeFromPhoto, htr', if_false, hph, ← reducePhotoId_eq_size,
              hred]
            cases hgp : getProp w "file_size" with
            | error e => simp [Except.map]
            | ok fs => simp [Except.map]
    | null =>
      left
      exact ⟨by simp [getFileIdFromPhoto, htr', hph], by simp [getFileSizeFromPhoto, htr', hph]⟩
    | undef =>
      left
      exact ⟨by simp [getFileIdFromPhoto, htr', hph], by simp [getFileSizeFromPhoto, htr', hph]⟩
    | nan =>
      left
      exact ⟨by simp [getFileIdFromPhoto, htr', hph], by simp [getFileSizeFromPhoto, htr', hph]⟩
    | bool b =>
      left
      exact ⟨by simp [getFileIdFromPhoto, htr', hph], by simp [getFileSizeFromPhoto, htr', hph]⟩
    | num n =>
      left
      exact ⟨by simp [getFileIdFromPhoto, htr', hph], by simp [getFileSizeFromPhoto, htr', hph]⟩
    | str st =>
      left
      exact ⟨by simp [getFileIdFromPhoto, htr', hph], by simp [getFileSizeFromPhoto, htr', hph]⟩
    | obj fs =>
      left
      exact ⟨by simp [getFileIdFromPhoto, htr', hph], by simp [getFileSizeFromPhoto, htr', hph]⟩

theorem largerStepId_ok_of_nonnull {p c : JVal} (hp : nullish p = false)
    (hc : nullish c = false) :
    ∃ q, largerStepId p c = Except.ok q ∧ nullish q = false := by
  unfold largerStepId
  by_cases ht : truthy p = true
  · rw [if_pos ht, getProp_ok _ hc]
    refine ⟨if jsGT (jsOr (propOf p "file_size") (JVal.num 0))
        (jsOr (propOf c "file_size") (JVal.num 0)) then p else c, by rfl, ?_⟩
    split
    · exact hp
    · exact hc
  · rw [if_neg ht]
    exact ⟨c, rfl, hc⟩

theorem reducePhotoId_ok_of_nonnull :
    ∀ (ps : List JVal) (p : JVal), nullish p = false →
      ps.all (fun v => !nullish v) = true →
      ∃ w, reducePhotoId p ps = Except.ok w ∧ nullish w = false := by
  intro ps
  induction ps with
  | nil =>
    intro p hp _
    exact ⟨p, rfl, hp⟩
  | cons c rest ih =>
    intro p hp hall
    simp only [List.all_cons, Bool.and_eq_true, Bool.not_eq_true'] at hall
    obtain ⟨hc, hrest⟩ := hall
    obtain ⟨q, hq, hqn⟩ := largerStepId_ok_of_nonnull hp hc
    obtain ⟨w, hw, hwn⟩ := ih q hqn (by
      simp only [List.all_eq_true] at hrest ⊢
      intro v hv
      simp [hrest v hv])
    refine ⟨w, ?_, hwn⟩
    simp only [reducePhotoId, hq]
    exact hw

theorem getPhotoFns_ok (result : JVal) (h : photoOk result = true) :
    (∃ v, getFileIdFromPhoto result = Except.ok v) ∧
      (∃ v, getFileSizeFromPhoto result = Except.ok v) := by
  by_cases htr : truthy result = false
  · constructor
    · refine ⟨JVal.null, ?_⟩
      unfold getFileIdFromPhoto
      rw [if_pos htr]
    · refine ⟨JVal.num 0, ?_⟩
      unfold getFileSizeFromPhoto
      rw [if_pos htr]
  · rw [Bool.not_eq_false] at htr
    have htr' : (truthy result = false) = False := by simp [htr]
    unfold photoOk at h
    cases hph : propOf result "photo" with
    | arr xs =>
      rw [hph] at h
      cases xs with
      | nil =>
        exact ⟨⟨JVal.null, by simp [getFileIdFromPhoto, htr', hph]⟩,
          ⟨JVal.num 0, by simp [getFileSizeFromPhoto, htr', hph]⟩⟩
      | cons p ps =>
        simp only [List.all_cons, Bool.and_eq_true, Bool.not_eq_true'] at h
        obtain ⟨hpn, hrest⟩ := h
        obtain ⟨w, hred, hwn⟩ := reducePhotoId_ok_of_nonnull ps p hpn (by
          simp only [List.all_eq_true] at hrest ⊢
          intro v hv
          simp [hrest v hv])
        constructor
        · refine ⟨propOf w "file_id", ?_⟩
          simp [getFileIdFromPhoto, htr', hph, hred, getProp, hwn]
        · refine ⟨jsOr (propOf w "file_size") (JVal.num 0), ?_⟩
          simp [getFileSizeFromPhoto, htr', hph, ← reducePhotoId_eq_size, hred, getProp, hwn]
    | null =>
      exact ⟨⟨JVal.null, by simp [getFileIdFromPhoto, htr', hph]⟩,
        ⟨JVal.num 0, by simp [getFileSizeFromPhoto, htr', hph]⟩⟩
    | undef =>
      exact ⟨⟨JVal.null, by simp [getFileIdFromPhoto, htr', hph]⟩,
        ⟨JVal.num 0, by simp [getFileSizeFromPhoto, htr', hph]⟩⟩
    | nan =>
      exact ⟨⟨JVal.null, by simp [getFileIdFromPhoto, htr', hph]⟩,
        ⟨JVal.num 0, by simp [getFileSizeFromPhoto, htr', hph]⟩⟩
    | bool b =>
      exact ⟨⟨JVal.null, by simp [getFileIdFromPhoto, htr', hph]⟩,
        ⟨JVal.num 0, by simp [getFileSizeFromPhoto, htr', hph]⟩⟩
    | num n =>
      exact ⟨⟨JVal.null, by simp [getFileIdFromPhoto, htr', hph]⟩,
        ⟨JVal.num 0, by simp [getFileSizeFromPhoto, htr', hph]⟩⟩
    | str st =>
      exact ⟨⟨JVal.null, by simp [getFileIdFromPhoto, htr', hph]⟩,
        ⟨JVal.num 0, by simp [getFileSizeFromPhoto, htr', hph]⟩⟩
    | obj fs =>
      exact ⟨⟨JVal.null, by simp [getFileIdFromPhoto, htr', hph]⟩,
        ⟨JVal.num 0, by simp [getFileSizeFromPhoto, htr', hph]⟩⟩

theorem processResult_ok (imageUrl : JVal) (urlS : String) (title : JVal) (env : Env)
    (baseUrl : String) (result : JVal) (putO : PutOutcome) (now : Int) (randId : String)
    (hph : photoOk result = true) (hput : (env.img_url.isNone || putOk putO) = true) :
    ∃ r ws, processResult imageUrl urlS title env baseUrl result putO now randId =
        Except.ok (r, ws) ∧
      (r.success = false → ∃ e, r.error = some e ∧ truthy e = true) := by
  obtain ⟨⟨fid, hfid⟩, ⟨fsz, hfsz⟩⟩ := getPhotoFns_ok result hph
  simp only [processResult, hfid]
  by_cases hfi : truthy fid = false
  · rw [if_pos hfi]
    exact ⟨_, _, rfl, fun _ => ⟨_, rfl, rfl⟩⟩
  · rw [if_neg hfi]
    simp only [hfsz]
    cases himg : env.img_url with
    | none =>
      refine ⟨_, _, rfl, ?_⟩
      intro hf
      simp at hf
    | some store =>
      rw [himg] at hput
      simp only [Option.isNone_some, Bool.false_or] at hput
      cases hputo : putO with
      | ok =>
        refine ⟨_, _, rfl, ?_⟩
        intro hf
        simp at hf
      | fail m =>
        rw [hputo] at hput
        simp [putOk] at hput

theorem processFetch_ok (imageUrl : JVal) (urlS : String) (title : JVal) (env : Env)
    (baseUrl : String) (fetchO : FetchOutcome) (putO : PutOutcome) (now : Int)
    (randId : String) (hsafe : respSafe fetchO = true)
    (hput : (env.img_url.isNone || putOk putO) = true) :
    ∃ r ws, processFetch imageUrl urlS title env baseUrl fetchO putO now randId =
        Except.ok (r, ws) ∧
      (r.success = false → ∃ e, r.error = some e ∧ truthy e = true) := by
  cases fetchO with
  | netErr m =>
    exact ⟨_, _, rfl, fun _ => ⟨jsOr m (JVal.str "network error"), rfl,
      truthy_jsOr_right (by rfl)⟩⟩
  | resp ob =>
    cases ob with
    | none => exact ⟨_, _, rfl, fun _ => ⟨_, rfl, rfl⟩⟩
    | some data =>
      simp only [respSafe, Bool.and_eq_true, Bool.not_eq_true'] at hsafe
      obtain ⟨hd, hph⟩ := hsafe
      simp only [processFetch, getProp_ok _ hd]
      by_cases hok : truthy (propOf data "ok") = false
      · rw [if_pos hok]
        exact ⟨_, _, rfl, fun _ => ⟨_, rfl, truthy_jsOr_right (by rfl)⟩⟩
      · rw [if_neg hok]
        by_cases hres : truthy (propOf data "result") = false
        · rw [if_pos hres]
          exact ⟨_, _, rfl, fun _ => ⟨_, rfl, truthy_jsOr_right (by rfl)⟩⟩
        · rw [if_neg hres]
          exact processResult_ok imageUrl urlS title env baseUrl _ putO now randId hph hput

/-- C1 counterexample: a nullish batch item.  The claim says `processOne`
never raises and resolves every failure to `{success:false, error}` —
including a null/undefined item — but the destructuring
`const { url: imageUrl, title } = item` on line 80 raises a TypeError before
any result can be produced. -/
theorem processOne_null_item_cex :
    processOne JVal.null
        ⟨none, some "tok", some "chat", none⟩ "https://h"
        (FetchOutcome.resp (some (JVal.obj []))) PutOutcome.ok 0 "abcd1234" =
      Except.error "TypeError: cannot destructure property url of null or undefined item" := by
  rfl

/-- C1 (amended): for every batch item and every outcome of the remote call
and the store write, `processOne` returns exactly one result and never
raises, PROVIDED the item is not null/undefined, the response body does not
parse to JSON `null` (and a `photo` array in it has no nullish elements),
and the configured store's put does not reject; under those conditions every
failure path (missing/invalid url, network failure, unparsable response,
API-reported failure, missing file id) resolves to a result with
`success=false` and a truthy — hence non-empty — error value.  On a nullish
item the destructuring raises, a null response body raises at `data.ok`, and
a rejecting put propagates out of `processOne` instead of yielding a
result. -/
theorem processOne_total_on_safe_inputs :
    ∀ (item : JVal) (env : Env) (baseUrl : String) (fetchO : FetchOutcome)
      (putO : PutOutcome) (now : Int) (randId : String),
      nullish item = false → respSafe fetchO = true →
      (env.img_url.isNone || putOk putO) = true →
      ∃ r ws, processOne item env baseUrl fetchO putO now randId = Except.ok (r, ws) ∧
        (r.success = false → ∃ e, r.error = some e ∧ truthy e = true) := by
  intro item env baseUrl fetchO putO now randId hitem hsafe hput
  unfold processOne
  rw [if_neg (by simp [hitem])]
  cases hurl : propOf item "url" with
  | str s =>
    show ∃ r ws,
      (if s = "" then Except.ok (mkFail (JVal.str s) (JVal.str "missing or invalid url"), [])
       else processFetch (JVal.str s) s (propOf item "title") env baseUrl fetchO putO now
         randId) = Except.ok (r, ws) ∧
      (r.success = false → ∃ e, r.error = some e ∧ truthy e = true)
    by_cases hs : s = ""
    · rw [if_pos hs]
      exact ⟨_, _, rfl, fun _ => ⟨_, rfl, rfl⟩⟩
    · rw [if_neg hs]
      exact processFetch_ok (JVal.str s) s (propOf item "title") env baseUrl fetchO putO now
        randId hsafe hput
  | null => exact ⟨_, _, rfl, fun _ => ⟨_, rfl, rfl⟩⟩
  | undef => exact ⟨_, _, rfl, fun _ => ⟨_, rfl, rfl⟩⟩
  | nan => exact ⟨_, _, rfl, fun _ => ⟨_, rfl, rfl⟩⟩
  | bool b => exact ⟨_, _, rfl, fun _ => ⟨_, rfl, rfl⟩⟩
  | num n => exact ⟨_, _, rfl, fun _ => ⟨_, rfl, rfl⟩⟩
  | arr xs => exact ⟨_, _, rfl, fun _ => ⟨_, rfl, rfl⟩⟩
  | obj fs => exact ⟨_, _, rfl, fun _ => ⟨_, rfl, rfl⟩⟩

/-- Concrete run of `processOne_total_on_safe_inputs`: a rejected url on a
safe world yields a `success=false` result with a truthy error. -/
theorem processOne_total_on_safe_inputs_witness :
    ∃ r ws,
      processOne (JVal.obj [("url", JVal.num 5)]) ⟨none, some "tok", some "chat", none⟩
          "https://h" (FetchOutcome.resp none) PutOutcome.ok 0 "abcd1234" =
        Except.ok (r, ws) ∧
      (r.success = false → ∃ e, r.error = some e ∧ truthy e = true) :=
  processOne_total_on_safe_inputs (JVal.obj [("url", JVal.num 5)])
    ⟨none, some "tok", some "chat", none⟩ "https://h" (FetchOutcome.resp none) PutOutcome.ok 0
    "abcd1234" (by rfl) (by rfl) (by rfl)

theorem processResult_no_write (imageUrl : JVal) (urlS : String) (title : JVal) (env : Env)
    (baseUrl : String) (result : JVal) (putO : PutOutcome) (now : Int) (randId : String)
    (r : IngestionResult) (ws : List KVWrite)
    (h : processResult imageUrl urlS title env baseUrl result putO now randId =
      Except.ok (r, ws))
    (hf : r.success = false) : ws = [] := by
  simp only [processResult] at h
  split at h
  · exact absurd h (by simp)
  · split at h
    · injection h with h1
      injection h1 with h2 h3
      exact h3.symm
    · split at h
      · exact absurd h (by simp)
      · split at h
        · exact absurd h (by simp)
        · injection h with h1
          injection h1 with h2 h3
          rw [← h2] at hf
          simp at hf

theorem processFetch_no_write (imageUrl : JVal) (urlS : String) (title : JVal) (env : Env)
    (baseUrl : String) (fetchO : FetchOutcome) (putO : PutOutcome) (now : Int)
    (randId : String) (r : IngestionResult) (ws : List KVWrite)
    (h : processFetch imageUrl urlS title env baseUrl fetchO putO now randId =
      Except.ok (r, ws))
    (hf : r.success = false) : ws = [] := by
  cases fetchO with
  | netErr m =>
    simp only [processFetch] at h
    injection h with h1
    injection h1 with h2 h3
    exact h3.symm
  | resp ob =>
    cases ob with
    | none =>
      simp only [processFetch] at h
      injection h with h1
      injection h1 with h2 h3
      exact h3.symm
    | some data =>
      simp only [processFetch] at h
      split at h
      · exact absurd h (by simp)
      · split at h
        · split at h
          · exact absurd h (by simp)
          · injection h with h1
            injection h1 with h2 h3
            exact h3.symm
        · split at h
          · exact absurd h (by simp)
          · split at h
            · split at h
              · exact absurd h (by simp)
              · injection h with h1
                injection h1 with h2 h3
                exact h3.symm
            · exact processResult_no_write imageUrl urlS title env baseUrl _ putO now randId
                r ws h hf

/-- C7: whenever `processOne` returns a result with `success=false` — for
any failure cause: missing/invalid url, network failure, unparsable
response, API-reported failure, or no photo variants — no store write has
occurred for that item: the write trace is empty, so the store state is
unchanged on every per-item error. -/
theorem processOne_failure_no_write :
    ∀ (item : JVal) (env : Env) (baseUrl : String) (fetchO : FetchOutcome)
      (putO : PutOutcome) (now : Int) (randId : String) (r : IngestionResult)
      (ws : List KVWrite),
      processOne item env baseUrl fetchO putO now randId = Except.ok (r, ws) →
      r.success = false → ws = [] := by
  intro item env baseUrl fetchO putO now randId r ws h hf
  simp only [processOne] at h
  split at h
  · exact absurd h (by simp)
  · split at h
    · split at h
      · injection h with h1
        injection h1 with h2 h3
        exact h3.symm
      · exact processFetch_no_write _ _ _ env baseUrl fetchO putO now randId r ws h hf
    · injection h with h1
      injection h1 with h2 h3
      exact h3.symm

/-- Concrete run of `processOne_failure_no_write`: the non-string url item
fails with an empty write trace. -/
theorem processOne_failure_no_write_witness :
    processOne (JVal.obj [("url", JVal.num 5)]) ⟨none, some "tok", some "chat", none⟩
        "https://h" (FetchOutcome.resp none) PutOutcome.ok 0 "abcd1234" =
      Except.ok (mkFail (JVal.num 5) (JVal.str "missing or invalid url"), []) ∧
      ([] : List KVWrite) = [] :=
  ⟨by rfl,
   processOne_failure_no_write (JVal.obj [("url", JVal.num 5)])
     ⟨none, some "tok", some "chat", none⟩ "https://h" (FetchOutcome.resp none) PutOutcome.ok 0
     "abcd1234" (mkFail (JVal.num 5) (JVal.str "missing or invalid url")) [] (by rfl) (by rfl)⟩


theorem onRequestGet_granted_not_unauthorized (env : Env) (origin : String)
    (pwdParam : Option String) (cursorParam : Option Nat)
    (hgate : ¬((match env.BASIC_PASS with
      | some bp => decide (bp ≠ "") && !(pwdParam == some bp)
      | none => false) = true)) :
    onRequestGet env origin pwdParam cursorParam ≠ errResponse "Unauthorized" 401 := by
  unfold onRequestGet
  rw [if_neg hgate]
  cases env.img_url with
  | none =>
    intro heq
    have hst := congrArg Response.status heq
    simp [errResponse, jsonResponse] at hst
  | some store =>
    show (match buildList origin (fetchAllWithMetadata store (listAllKeys store cursorParam)) with
      | Except.ok items =>
        jsonResponse
          (JVal.obj [("list", JVal.arr (items.map listingItemToJVal)),
            ("total", JVal.num items.length)]) 200
      | Except.error e => errResponse (if e = "" then "Internal error" else e) 500) ≠
      errResponse "Unauthorized" 401
    cases buildList origin (fetchAllWithMetadata store (listAllKeys store cursorParam)) with
    | ok items =>
      intro heq
      have hst := congrArg Response.status heq
      simp [errResponse, jsonResponse] at hst
    | error e =>
      intro heq
      have hst := congrArg Response.status heq
      simp [errResponse, jsonResponse] at hst

theorem onRequestPost_granted_not_unauthorized (env : Env) (origin : String)
    (pwdParam authHeader : Option String) (bodyO : Option JVal) (world : Nat → ItemWorld)
    (hca : ¬(checkAuth env pwdParam authHeader = false)) :
    onRequestPost env origin pwdParam authHeader bodyO world ≠
      Except.ok (errResponse "Unauthorized" 401) := by
  unfold onRequestPost
  rw [if_neg hca]
  split
  · intro heq
    injection heq with h1
    have hst := congrArg Response.status h1
    simp [errResponse, jsonResponse] at hst
  · cases bodyO with
    | none =>
      intro heq
      injection heq with h1
      have hst := congrArg Response.status h1
      simp [errResponse, jsonResponse] at hst
    | some body =>
      show (match propOf body "list" with
        | JVal.arr [] =>
          Except.ok
            (errResponse "body must be \x7b list: [ \x7b url, title? \x7d ] \x7d with at least one item" 400)
        | JVal.arr (it :: items) =>
          (match processAll env origin world 0 (it :: items) with
           | Except.error e => Except.error e
           | Except.ok results =>
             Except.ok
               (jsonResponse
                 (JVal.obj [("results", JVal.arr (results.map ingestionResultToJVal))]) 200))
        | _ =>
          Except.ok
            (errResponse "body must be \x7b list: [ \x7b url, title? \x7d ] \x7d with at least one item" 400)) ≠
        Except.ok (errResponse "Unauthorized" 401)
      cases hl : propOf body "list" with
      | arr items =>
        cases items with
        | nil =>
          intro heq
          have heq' :
              Except.ok (errResponse
                  "body must be \x7b list: [ \x7b url, title? \x7d ] \x7d with at least one item" 400) =
                Except.ok (errResponse "Unauthorized" 401) := heq
          injection heq' with h1
          have hst := congrArg Response.status h1
          simp [errResponse, jsonResponse] at hst
        | cons it rest =>
          intro heq
          have heq' : (match processAll env origin world 0 (it :: rest) with
            | Except.error e => Except.error e
            | Except.ok results =>
              Except.ok
                (jsonResponse
                  (JVal.obj [("results", JVal.arr (results.map ingestionResultToJVal))])
                  200)) = Except.ok (errResponse "Unauthorized" 401) := heq
          revert heq'
          cases processAll env origin world 0 (it :: rest) with
          | error e => exact fun heq' => Except.noConfusion heq'
          | ok results =>
            intro heq'
            injection heq' with h1
            have hst := congrArg Response.status h1
            simp [errResponse, jsonResponse] at hst
      | null =>
        intro heq
        have heq' :
            Except.ok (errResponse
                "body must be \x7b list: [ \x7b url, title? \x7d ] \x7d with at least one item" 400) =
              Except.ok (errResponse "Unauthorized" 401) := heq
        injection heq' with h1
        have hst := congrArg Response.status h1
        simp [errResponse, jsonResponse] at hst
      | undef =>
        intro heq
        have heq' :
            Except.ok (errResponse
                "body must be \x7b list: [ \x7b url, title? \x7d ] \x7d with at least one item" 400) =
              Except.ok (errResponse "Unauthorized" 401) := heq
        injection heq' with h1
        have hst := congrArg Response.status h1
        simp [errResponse, jsonResponse] at hst
      | nan =>
        intro heq
        have heq' :
            Except.ok (errResponse
                "body must be \x7b list: [ \x7b url, title? \x7d ] \x7d with at least one item" 400) =
              Except.ok (errResponse "Unauthorized" 401) := heq
        injection heq' with h1
        have hst := congrArg Response.status h1
        simp [errResponse, jsonResponse] at hst
      | bool b =>
        intro heq
        have heq' :
            Except.ok (errResponse
                "body must be \x7b list: [ \x7b url, title? \x7d ] \x7d with at least one item" 400) =
              Except.ok (errResponse "Unauthorized" 401) := heq
        injection heq' with h1
        have hst := congrArg Response.status h1
        simp [errResponse, jsonResponse] at hst
      | num n =>
        intro heq
        have heq' :
            Except.ok (errResponse
                "body must be \x7b list: [ \x7b url, title? \x7d ] \x7d with at least one item" 400) =
              Except.ok (errResponse "Unauthorized" 401) := heq
        injection heq' with h1
        have hst := congrArg Response.status h1
        simp [errResponse, jsonResponse] at hst
      | str st =>
        intro heq
        have heq' :
            Except.ok (errResponse
                "body must be \x7b list: [ \x7b url, title? \x7d ] \x7d with at least one item" 400) =
              Except.ok (errResponse "Unauthorized" 401) := heq
        injection heq' with h1
        have hst := congrArg Response.status h1
        simp [errResponse, jsonResponse] at hst
      | obj fs =>
        intro heq
        have heq' :
            Except.ok (errResponse
                "body must be \x7b list: [ \x7b url, title? \x7d ] \x7d with at least one item" 400) =
              Except.ok (errResponse "Unauthorized" 401) := heq
        injection heq' with h1
        have hst := congrArg Response.status h1
        simp [errResponse, jsonResponse] at hst

/-- C3: for every configured secret S and presented credential C, access to
the listing and ingestion handlers is granted iff S is empty/absent or C
equals S exactly; for ingestion the presented credential is a non-empty
`pwd` query parameter if one exists, else the Authorization header's value
with the `Bearer ` prefix stripped and trimmed; a mismatch yields the
401 Unauthorized response with no further processing. -/
theorem auth_gate_access :
    ∀ (env : Env) (origin : String) (pwdParam authHeader : Option String)
      (cursorParam : Option Nat) (bodyO : Option JVal) (world : Nat → ItemWorld),
      (checkAuth env pwdParam authHeader = true ↔
        (env.BASIC_PASS = none ∨ env.BASIC_PASS = some "" ∨
          getPassword pwdParam authHeader = env.BASIC_PASS)) ∧
      (∀ p, pwdParam = some p → p ≠ "" → getPassword pwdParam authHeader = some p) ∧
      (∀ a, authHeader = some a → (pwdParam = none ∨ pwdParam = some "") →
        jsStartsWith a "Bearer " = true →
        getPassword pwdParam authHeader = some (jsTrim (jsDrop a 7))) ∧
      (onRequestGet env origin pwdParam cursorParam = errResponse "Unauthorized" 401 ↔
        ¬ (env.BASIC_PASS = none ∨ env.BASIC_PASS = some "" ∨
          pwdParam = env.BASIC_PASS)) ∧
      (onRequestPost env origin pwdParam authHeader bodyO world =
          Except.ok (errResponse "Unauthorized" 401) ↔
        checkAuth env pwdParam authHeader = false) := by
  intro env origin pwdParam authHeader cursorParam bodyO world
  refine ⟨?_, ?_, ?_, ?_, ?_⟩
  · -- checkAuth characterization
    cases hbp : env.BASIC_PASS with
    | none => simp [checkAuth, hbp]
    | some bp =>
      by_cases hemp : bp = ""
      · subst hemp
        simp [checkAuth, hbp]
      · simp only [checkAuth, hbp]
        rw [if_neg hemp]
        simp [hemp]
  · -- non-empty pwd parameter wins
    intro p hp hpne
    subst hp
    simp only [getPassword]
    rw [if_pos hpne]
  · -- bearer header fallback
    intro a ha hpw hsw
    have hane : a ≠ "" := by
      intro he
      subst he
      exact absurd hsw (by decide)
    subst ha
    rcases hpw with h | h <;> subst h
    · simp only [getPassword]
      rw [if_pos (by simp [hane, hsw])]
    · simp only [getPassword]
      rw [if_neg (by simp), if_pos (by simp [hane, hsw])]
  · -- listing gate
    by_cases hgate : (match env.BASIC_PASS with
        | some bp => decide (bp ≠ "") && !(pwdParam == some bp)
        | none => false) = true
    · constructor
      · intro _
        cases hbp : env.BASIC_PASS with
        | none => rw [hbp] at hgate; exact absurd hgate (by simp)
        | some bp =>
          rw [hbp] at hgate
          simp only [Bool.and_eq_true, decide_eq_true_eq, Bool.not_eq_true',
            beq_eq_false_iff_ne] at hgate
          obtain ⟨hne, hnp⟩ := hgate
          intro hd
          rcases hd with h | h | h
          · exact Option.noConfusion h
          · injection h with h2
            exact hne h2
          · exact hnp h
      · intro _
        unfold onRequestGet
        rw [if_pos hgate]
    · constructor
      · intro heq
        exact absurd heq (onRequestGet_granted_not_unauthorized env origin pwdParam
          cursorParam hgate)
      · intro hnd
        exfalso
        apply hnd
        cases hbp : env.BASIC_PASS with
        | none => exact Or.inl rfl
        | some bp =>
          rw [hbp] at hgate
          simp only [Bool.and_eq_true, decide_eq_true_eq, Bool.not_eq_true',
            beq_eq_false_iff_ne, not_and] at hgate
          by_cases hemp : bp = ""
          · exact Or.inr (Or.inl (by rw [hemp]))
          · rcases not_not.mp (fun hne => hgate hemp hne) with h
            exact Or.inr (Or.inr (by rw [h]))
  · -- ingestion gate
    by_cases hca : checkAuth env pwdParam authHeader = false
    · constructor
      · intro _
        exact hca
      · intro _
        unfold onRequestPost
        rw [if_pos hca]
    · constructor
      · intro heq
        exact absurd heq (onRequestPost_granted_not_unauthorized env origin pwdParam
          authHeader bodyO world hca)
      · intro h
        exact absurd h hca

/-- Concrete runs of `auth_gate_access`: a non-empty pwd parameter is the
credential; a wrong pwd against a configured secret yields the 401 response
from the POST handler and the 401 listing response; a bearer header is
stripped and trimmed. -/
theorem auth_gate_access_witness :
    getPassword (some "pw") none = some "pw" ∧
      getPassword none (some "Bearer  tok ") = some (jsTrim (jsDrop "Bearer  tok " 7)) ∧
      onRequestPost ⟨some "s3cret", some "tok", some "chat", none⟩ "https://h" (some "wrong")
          none none (fun _ => ⟨FetchOutcome.resp none, PutOutcome.ok, 0, "r"⟩) =
        Except.ok (errResponse "Unauthorized" 401) ∧
      onRequestGet ⟨some "s3cret", some "tok", some "chat", none⟩ "https://h" (some "wrong")
          none = errResponse "Unauthorized" 401 :=
  ⟨(auth_gate_access ⟨some "s3cret", some "tok", some "chat", none⟩ "https://h" (some "pw")
      none none none (fun _ => ⟨FetchOutcome.resp none, PutOutcome.ok, 0, "r"⟩)).2.1 "pw" rfl
      (by decide),
   (auth_gate_access ⟨some "s3cret", some "tok", some "chat", none⟩ "https://h" none
      (some "Bearer  tok ") none none
      (fun _ => ⟨FetchOutcome.resp none, PutOutcome.ok, 0, "r"⟩)).2.2.1 "Bearer  tok " rfl
      (Or.inl rfl) (by rfl),
   (auth_gate_access ⟨some "s3cret", some "tok", some "chat", none⟩ "https://h" (some "wrong")
      none none none (fun _ => ⟨FetchOutcome.resp none, PutOutcome.ok, 0, "r"⟩)).2.2.2.2.mpr
      (by rfl),
   (auth_gate_access ⟨some "s3cret", some "tok", some "chat", none⟩ "https://h" (some "wrong")
      none none none (fun _ => ⟨FetchOutcome.resp none, PutOutcome.ok, 0, "r"⟩)).2.2.2.1.mpr
      (by decide)⟩
